import Mathlib

/-!
# Verification of the NeuroSim university knowledge-graph core

A shallow embedding of the core of the repository:

* `src/knowledge_graph.py` — the typed directed graph (a `networkx.DiGraph`)
  and its traversal/query operations;
* `src/reasoner.py` — the query-type enumeration, reasoning results, the
  dispatcher `execute_query` and the two-course comparison rule;
* `src/llm_interface.py` — the deterministic pattern-based mock parser
  (`MockLLMProvider.generate`) and `LLMInterface.parse_question`.

Python dictionaries are modelled as association lists with set-semantics
update, Python strings as Lean `String`/`List Char`, Python ints as `Int`.
-/

namespace NeuroSim

/-- Attribute values stored in node/edge attribute dictionaries: the fragment
of Python values that `_build_graph` actually stores (strings, ints, and the
string lists used for `research_areas`). -/
inductive Val where
  | s (v : String)
  | n (v : Int)
  | strs (vs : List String)
  deriving DecidableEq, Repr

/-- A Python attribute dictionary: keys unique, insertion order kept. -/
abbrev Attrs := List (String × Val)

/-- Python `dict.get(k)` (with default `None`): `none` models Python `None`. -/
def dget (d : Attrs) (k : String) : Option Val :=
  (d.find? (fun kv => kv.1 == k)).map (fun kv => kv.2)

/-- Python `dict.get(k, default)`. -/
def dgetD (d : Attrs) (k : String) (v : Val) : Val :=
  (dget d k).getD v

/-- Python `d[k] = v`: replace the binding in place, or append a new one
(insertion order is preserved, as for Python dicts). -/
def dset : Attrs → String → Val → Attrs
  | [], k, v => [(k, v)]
  | (k', v') :: d, k, v =>
    if k' == k then (k, v) :: d else (k', v') :: dset d k v

/-- Python `d.update(new)`: fold `dset` over the new bindings. -/
def dupdate (d : Attrs) (new : Attrs) : Attrs :=
  new.foldl (fun acc kv => dset acc kv.1 kv.2) d

/-- A directed graph in the style of `networkx.DiGraph`: node ids with their
attribute dicts (insertion order), and at most one edge per ordered pair of
ids, each carrying an attribute dict (here always just `relation`). -/
structure DiGraph where
  nodes : List (String × Attrs)
  edges : List (String × String × Attrs)
  deriving DecidableEq, Repr

def DiGraph.hasNode (g : DiGraph) (nid : String) : Bool :=
  g.nodes.any (fun n => n.1 == nid)

/-- `nx.DiGraph.add_node`: merge attributes into an existing node's dict,
or append a fresh node. -/
def setNodeAttrs : List (String × Attrs) → String → Attrs → List (String × Attrs)
  | [], nid, a => [(nid, a)]
  | (i, a0) :: ns, nid, a =>
    if i == nid then (i, dupdate a0 a) :: ns else (i, a0) :: setNodeAttrs ns nid a

def addNode (g : DiGraph) (nid : String) (a : Attrs) : DiGraph :=
  { g with nodes := setNodeAttrs g.nodes nid a }

/-- Update the attribute dict of the (unique) edge `(u, v)` in place, or
append a fresh edge. Mirrors `nx.DiGraph.add_edge`: re-adding an existing
edge merges attributes, so a later `relation=...` overwrites the earlier one
("last assignment wins"). -/
def setEdgeAttrs : List (String × String × Attrs) → String → String → Attrs →
    List (String × String × Attrs)
  | [], u, v, a => [(u, v, a)]
  | (x, y, a0) :: es, u, v, a =>
    if x == u && y == v then (x, y, dupdate a0 a) :: es
    else (x, y, a0) :: setEdgeAttrs es u v a

/-- `nx.DiGraph.add_edge(u, v, **attrs)`: both endpoints are added as nodes
(with empty attribute dicts) when absent, then the single `(u, v)` edge is
created or its attributes merged. -/
def addEdge (g : DiGraph) (u v : String) (a : Attrs) : DiGraph :=
  let g1 := addNode (addNode g u []) v []
  { g1 with edges := setEdgeAttrs g1.edges u v a }

/-- `networkx` nbunch resolution, as performed by `G.out_edges(n)` /
`G.in_edges(n)` (`Graph.nbunch_iter`): if `n` is a node, the bunch is `[n]`;
otherwise `n` — a string — is treated as an *iterable of its characters*, and
every character that happens to be a node id is kept (occurrence by
occurrence).  In particular a missing multi-character id whose characters are
not node ids resolves to the empty bunch, so the edge views come back empty —
no exception is raised. -/
def nbunch (g : DiGraph) (nid : String) : List String :=
  if g.hasNode nid then [nid]
  else (nid.data.filter (fun c => g.hasNode (String.mk [c]))).map
    (fun c => String.mk [c])

/-- `self.graph.out_edges(nid, data=True)`. -/
def outEdges (g : DiGraph) (nid : String) : List (String × String × Attrs) :=
  (nbunch g nid).flatMap (fun s => g.edges.filter (fun e => e.1 == s))

/-- `self.graph.in_edges(nid, data=True)`. -/
def inEdges (g : DiGraph) (nid : String) : List (String × String × Attrs) :=
  (nbunch g nid).flatMap (fun t => g.edges.filter (fun e => e.2.1 == t))

/-! ## The input document (`data/university_kg.json`, §6 of the spec) -/

structure DeptRec where
  id : String
  name : String
  code : String
  facultyHead : Option String
  deriving DecidableEq, Repr

structure FacultyRec where
  id : String
  name : String
  title : String
  department : String
  email : Option String
  researchAreas : Option (List String)
  deriving DecidableEq, Repr

structure CourseRec where
  id : String
  code : String
  name : String
  credits : Int
  level : String
  department : String
  description : Option String
  taughtBy : Option (List String)
  deriving DecidableEq, Repr

structure PrereqRec where
  course : String
  requires : String
  deriving DecidableEq, Repr

structure Document where
  departments : List DeptRec
  faculty : List FacultyRec
  courses : List CourseRec
  prerequisites : List PrereqRec
  deriving DecidableEq, Repr

/-- The five passes of `KnowledgeGraph._build_graph`, one definition per
commented block of the source; `buildGraph` chains them in source order. -/
def emptyGraph : DiGraph := ⟨[], []⟩

/-- "Add department nodes". -/
def addDeptNodes (g : DiGraph) (l : List DeptRec) : DiGraph :=
  l.foldl (fun g d =>
    addNode g d.id
      [("type", .s "department"), ("name", .s d.name), ("code", .s d.code)]) g

/-- "Add faculty nodes" with their `belongs_to` edge. -/
def addFacultyNodes (g : DiGraph) (l : List FacultyRec) : DiGraph :=
  l.foldl (fun g f =>
    let g' := addNode g f.id
      [("type", .s "faculty"), ("name", .s f.name), ("title", .s f.title),
       ("email", .s (f.email.getD "")),
       ("research_areas", .strs (f.researchAreas.getD []))]
    addEdge g' f.id f.department [("relation", .s "belongs_to")]) g

/-- "Add department head edges". -/
def addHeadEdges (g : DiGraph) (l : List DeptRec) : DiGraph :=
  l.foldl (fun g d =>
    match d.facultyHead with
    | some h => addEdge g h d.id [("relation", .s "heads")]
    | none => g) g

/-- "Add course nodes" with their `belongs_to` and `teaches` edges. -/
def addCourseNodes (g : DiGraph) (l : List CourseRec) : DiGraph :=
  l.foldl (fun g c =>
    let g' := addNode g c.id
      [("type", .s "course"), ("code", .s c.code), ("name", .s c.name),
       ("credits", .n c.credits), ("level", .s c.level),
       ("description", .s (c.description.getD ""))]
    let g'' := addEdge g' c.id c.department [("relation", .s "belongs_to")]
    (c.taughtBy.getD []).foldl (fun gi instr =>
      addEdge gi instr c.id [("relation", .s "teaches")]) g'') g

/-- "Add prerequisite edges". -/
def addPrereqEdges (g : DiGraph) (l : List PrereqRec) : DiGraph :=
  l.foldl (fun g p =>
    addEdge g p.course p.requires [("relation", .s "prerequisite")]) g

/-- `KnowledgeGraph._build_graph`: department nodes; faculty nodes with their
`belongs_to` edge; `heads` edges; course nodes with `belongs_to` and
`teaches` edges; finally the `prerequisite` edges. -/
def buildGraph (doc : Document) : DiGraph :=
  addPrereqEdges
    (addCourseNodes
      (addHeadEdges
        (addFacultyNodes (addDeptNodes emptyGraph doc.departments) doc.faculty)
        doc.departments)
      doc.courses)
    doc.prerequisites

/-! ## `KnowledgeGraph` query methods -/

/-- `get_node`: the node's id merged with its attribute dict, or absent. -/
def getNode (g : DiGraph) (nid : String) : Option (String × Attrs) :=
  (g.nodes.find? (fun n => n.1 == nid)).map (fun n => (nid, n.2))

/-- `get_all_nodes_by_type`. -/
def allNodesByType (g : DiGraph) (ty : String) : List (String × Attrs) :=
  g.nodes.filter (fun n => dget n.2 "type" == some (.s ty))

def allCourses (g : DiGraph) : List (String × Attrs) := allNodesByType g "course"

def strUpper (s : String) : String := ⟨s.data.map Char.toUpper⟩

def dgetStrD (d : Attrs) (k : String) (dflt : String) : String :=
  match dget d k with
  | some (.s v) => v
  | _ => dflt

/-- `get_course_by_code(code)`: iterates over the courses comparing
upper-cased codes.  The argument is an `Option` because the rule handlers
pass `params.get(...)`, which may be Python `None`; `None.upper()` raises
`AttributeError` — but only if the loop body runs at least once. -/
def getCourseByCode (g : DiGraph) (code : Option String) :
    Except String (Option (String × Attrs)) :=
  match code with
  | some c =>
    .ok ((allCourses g).find? (fun n => strUpper (dgetStrD n.2 "code" "") == strUpper c))
  | none =>
    if (allCourses g).isEmpty then .ok none
    else .error "AttributeError: 'NoneType' object has no attribute 'upper'"

def isPrereqE (e : String × String × Attrs) : Bool :=
  dget e.2.2 "relation" == some (.s "prerequisite")

def isBelongsE (e : String × String × Attrs) : Bool :=
  dget e.2.2 "relation" == some (.s "belongs_to")

/-- `get_prerequisites(course_id)`: the direct prerequisites — targets of the
outgoing `prerequisite` edges, kept only when `get_node` finds them. -/
def getPrerequisites (g : DiGraph) (courseId : String) : List (String × Attrs) :=
  (outEdges g courseId).filterMap
    (fun e => if isPrereqE e then getNode g e.2.1 else none)

/-- One pass of the body of the `while queue:` loop in
`get_all_prerequisites`: fold over the popped node's out-edges, adding each
`prerequisite` target that is not yet in the visited set to both the visited
set and (as the second component) the list of newly enqueued ids.  The
membership test uses the set as updated *within* the loop, as in the Python
code. -/
def bfsExpand : List (String × String × Attrs) → List String →
    List String × List String
  | [], vis => (vis, [])
  | e :: es, vis =>
    if isPrereqE e && !vis.contains e.2.1 then
      let r := bfsExpand es (vis ++ [e.2.1])
      (r.1, e.2.1 :: r.2)
    else bfsExpand es vis

/-- The `while queue:` loop of `get_all_prerequisites`, fuel-indexed so that
the definition is structural; `none` means the fuel ran out.
`bfs_terminates` (claim C8) shows the fuel `2 * |edges| + 1` used below never
runs out, so the fuel is a proof device, not a semantic one.  The Python
`all_prereqs` set is modelled as a duplicate-free list in insertion order
(the claims only inspect membership). -/
def gapAux (g : DiGraph) : Nat → List String → List String → Option (List String)
  | _, [], vis => some vis
  | 0, _ :: _, _ => none
  | fuel + 1, current :: queue, vis =>
    let r := bfsExpand (outEdges g current) vis
    gapAux g fuel (queue ++ r.2) r.1

def bfsFuel (g : DiGraph) : Nat := 2 * g.edges.length + 1

/-- The id set computed by the breadth-first loop of `get_all_prerequisites`,
started — as in the code — from the queue `[course_id]` and an *empty*
visited set. -/
def allPrereqIds (g : DiGraph) (courseId : String) : List String :=
  (gapAux g (bfsFuel g) [courseId] []).getD []

/-- `get_all_prerequisites(course_id)`: the visited ids mapped back to node
records, dropping ids `get_node` cannot find. -/
def getAllPrerequisites (g : DiGraph) (courseId : String) : List (String × Attrs) :=
  (allPrereqIds g courseId).filterMap (fun pid => getNode g pid)

/-- `get_courses_requiring(course_id)`: sources of incoming `prerequisite`
edges. -/
def getCoursesRequiring (g : DiGraph) (courseId : String) : List (String × Attrs) :=
  (inEdges g courseId).filterMap
    (fun e => if isPrereqE e then getNode g e.1 else none)

/-- `get_faculty_by_department(dept_id)`: sources of incoming `belongs_to`
edges whose node record has type `faculty`. -/
def getFacultyByDepartment (g : DiGraph) (deptId : String) : List (String × Attrs) :=
  (inEdges g deptId).filterMap (fun e =>
    if isBelongsE e then
      match getNode g e.1 with
      | some nrec =>
        if dget nrec.2 "type" == some (.s "faculty") then some nrec else none
      | none => none
    else none)

/-- `get_faculty_department(faculty_id)`: the first outgoing `belongs_to`
edge's target node (the Python code returns `get_node(target)` — possibly
`None` — as soon as it sees the first such edge). -/
def getFacultyDepartment (g : DiGraph) (facultyId : String) : Option (String × Attrs) :=
  ((outEdges g facultyId).find? isBelongsE).bind (fun e => getNode g e.2.1)

/-- `get_course_department(course_id)`: same shape as
`get_faculty_department`. -/
def getCourseDepartment (g : DiGraph) (courseId : String) : Option (String × Attrs) :=
  ((outEdges g courseId).find? isBelongsE).bind (fun e => getNode g e.2.1)

/-- `can_take_course(course_id, completed_courses)`: the missing list keeps
exactly the direct-prerequisite ids not in `completed`; eligibility is their
absence. -/
def canTakeCourse (g : DiGraph) (courseId : String) (completed : List String) :
    Bool × List String :=
  let missing := ((getPrerequisites g courseId).map (fun p => p.1)).filter
    (fun pid => !completed.contains pid)
  (missing.isEmpty, missing)

/-! ## `SymbolicReasoner` (src/reasoner.py) -/

/-- The closed `QueryType` enumeration (17 intents). -/
inductive QueryType where
  | GET_COURSE_INFO
  | GET_FACULTY_INFO
  | GET_DEPARTMENT_INFO
  | GET_PREREQUISITES
  | GET_ALL_PREREQUISITES
  | GET_COURSES_BY_DEPARTMENT
  | GET_FACULTY_BY_DEPARTMENT
  | GET_COURSES_TAUGHT_BY
  | GET_COURSE_INSTRUCTORS
  | GET_DEPARTMENT_HEAD
  | CAN_TAKE_COURSE
  | GET_COURSES_REQUIRING
  | GET_COURSES_BY_LEVEL
  | GET_FACULTY_BY_RESEARCH
  | SEARCH_COURSES
  | COUNT_ENTITIES
  | COMPARE_COURSES
  deriving DecidableEq, Repr

/-- The Python enum member name (used by `QueryType[name]` in
`parse_question`). -/
def QueryType.name : QueryType → String
  | .GET_COURSE_INFO => "GET_COURSE_INFO"
  | .GET_FACULTY_INFO => "GET_FACULTY_INFO"
  | .GET_DEPARTMENT_INFO => "GET_DEPARTMENT_INFO"
  | .GET_PREREQUISITES => "GET_PREREQUISITES"
  | .GET_ALL_PREREQUISITES => "GET_ALL_PREREQUISITES"
  | .GET_COURSES_BY_DEPARTMENT => "GET_COURSES_BY_DEPARTMENT"
  | .GET_FACULTY_BY_DEPARTMENT => "GET_FACULTY_BY_DEPARTMENT"
  | .GET_COURSES_TAUGHT_BY => "GET_COURSES_TAUGHT_BY"
  | .GET_COURSE_INSTRUCTORS => "GET_COURSE_INSTRUCTORS"
  | .GET_DEPARTMENT_HEAD => "GET_DEPARTMENT_HEAD"
  | .CAN_TAKE_COURSE => "CAN_TAKE_COURSE"
  | .GET_COURSES_REQUIRING => "GET_COURSES_REQUIRING"
  | .GET_COURSES_BY_LEVEL => "GET_COURSES_BY_LEVEL"
  | .GET_FACULTY_BY_RESEARCH => "GET_FACULTY_BY_RESEARCH"
  | .SEARCH_COURSES => "SEARCH_COURSES"
  | .COUNT_ENTITIES => "COUNT_ENTITIES"
  | .COMPARE_COURSES => "COMPARE_COURSES"

/-- Python `str(query_type)` on an enum member, as interpolated into the
"Unknown query type" message. -/
def QueryType.pyStr (qt : QueryType) : String := "QueryType." ++ qt.name

/-- Parameter values the parser produces: strings or lists of strings
(`completed_courses`). -/
inductive PVal where
  | s (v : String)
  | strs (vs : List String)
  deriving DecidableEq, Repr

/-- The `params` dict passed to `execute_query` and to each rule. -/
abbrev Params := List (String × PVal)

/-- Python `params.get(k)`. -/
def pget (params : Params) (k : String) : Option PVal :=
  (params.find? (fun kv => kv.1 == k)).map (fun kv => kv.2)

/-- `params.get(k)` when the value is expected to be a string (the parser
only ever stores strings under the course/department keys). -/
def pgetStr (params : Params) (k : String) : Option String :=
  match pget params k with
  | some (.s v) => some v
  | _ => none

/-- A `ReasoningStep`; the `inputs`/`outputs` snapshots are elided because no
claim inspects them. -/
structure ReasoningStep where
  ruleName : String
  description : String
  deriving DecidableEq, Repr

/-- The comparison mapping built by `_rule_compare_courses`. -/
structure Comparison where
  course1 : String × Attrs
  course2 : String × Attrs
  sameDepartment : Bool
  sameLevel : Bool
  creditsDiff : Int
  commonPrereqCount : Nat
  deriving DecidableEq, Repr

/-- Answer payloads of the modelled rules. -/
inductive Answer where
  | comparison (c : Comparison)
  deriving DecidableEq, Repr

/-- `ReasoningResult` (success flag, optional answer, audit chain, optional
error message). -/
structure ReasoningResult where
  queryType : QueryType
  answer : Option Answer
  success : Bool
  reasoningChain : List ReasoningStep
  errorMessage : Option String
  deriving DecidableEq, Repr

/-- `execute_query(query_type, params)`.  The rules table is the dispatcher's
`self._rules` dict; a handler is a Python callable whose raised exceptions
are modelled by the `Except` error channel.  The dispatcher itself is total:
an unregistered type produces a failed result with a descriptive message, and
a handler error is caught and converted into a failed result carrying the
exception's message. -/
def executeQuery (rules : QueryType → Option (Params → Except String ReasoningResult))
    (qt : QueryType) (params : Params) : ReasoningResult :=
  match rules qt with
  | none =>
    { queryType := qt, answer := none, success := false, reasoningChain := [],
      errorMessage := some ("Unknown query type: " ++ qt.pyStr) }
  | some handler =>
    match handler params with
    | .ok r => r
    | .error e =>
      { queryType := qt, answer := none, success := false, reasoningChain := [],
        errorMessage := some e }

/-- Python `str(x)` for an optional code (`None` prints as "None"). -/
def optStr : Option String → String
  | some v => v
  | none => "None"

/-- The integer stored under a key, with Python `.get(k, 0)` default.  The
graph builder always stores `credits` as an int, so the non-int fallback `0`
is never exercised on built graphs. -/
def dgetIntD (d : Attrs) (k : String) (dflt : Int) : Int :=
  match dget d k with
  | some (.n i) => i
  | _ => dflt

/-- The early-return failure result of `_rule_compare_courses` when a course
code does not resolve. -/
def compareNotFound (codeOpt : Option String) : ReasoningResult :=
  { queryType := .COMPARE_COURSES, answer := none, success := false,
    reasoningChain := [],
    errorMessage := some ("Course not found: " ++ optStr codeOpt) }

/-- The success path of `_rule_compare_courses` once both courses resolved. -/
def compareResolved (g : DiGraph) (course1 course2 : String × Attrs) :
    ReasoningResult :=
  let step1 : ReasoningStep :=
    { ruleName := "RESOLVE_COURSES",
      description := "Resolved courses: " ++ dgetStrD course1.2 "name" ""
        ++ " and " ++ dgetStrD course2.2 "name" "" }
  let prereqs1 := ((getAllPrerequisites g course1.1).map (fun p => p.1)).dedup
  let prereqs2 := ((getAllPrerequisites g course2.1).map (fun p => p.1)).dedup
  let commonPrereqs := prereqs1.filter (fun pid => prereqs2.contains pid)
  let step2 : ReasoningStep :=
    { ruleName := "COMPARE_PREREQUISITES",
      description := "Common prerequisites: " ++ toString commonPrereqs.length }
  let comparison : Comparison :=
    { course1 := course1, course2 := course2,
      sameDepartment := dget course1.2 "department" == dget course2.2 "department",
      sameLevel := dget course1.2 "level" == dget course2.2 "level",
      creditsDiff := dgetIntD course1.2 "credits" 0 - dgetIntD course2.2 "credits" 0,
      commonPrereqCount := commonPrereqs.length }
  { queryType := .COMPARE_COURSES, answer := some (.comparison comparison),
    success := true, reasoningChain := [step1, step2], errorMessage := none }

/-- `_rule_compare_courses(params)` (src/reasoner.py lines 837-896).  Both
course codes are resolved through `get_course_by_code`; the transitive
prerequisite id sets are intersected; the comparison mapping is assembled
from the *node attribute dicts* — note that `course.get('department')` reads
a key that course nodes never carry. -/
def ruleCompareCourses (g : DiGraph) (params : Params) :
    Except String ReasoningResult := do
  let course1Code := pgetStr params "course1"
  let course2Code := pgetStr params "course2"
  let course1? ← getCourseByCode g course1Code
  let course2? ← getCourseByCode g course2Code
  match course1?, course2? with
  | none, _ => .ok (compareNotFound course1Code)
  | some _, none => .ok (compareNotFound course2Code)
  | some course1, some course2 => .ok (compareResolved g course1 course2)

/-! ## The deterministic mock parser (src/llm_interface.py)

`MockLLMProvider.generate` matches an ordered list of regular expressions
against the lower-cased question.  Each regex is hand-compiled below into a
continuation-passing matcher with full ordered backtracking, which is exactly
the semantics of Python `re`: alternatives are tried left to right,
quantifiers greedily (longest first), and `re.search` tries start positions
left to right.  The original regex is quoted above each compiled pattern. -/

/-- Captured groups, in order of completion (our patterns only use
non-nested sequential groups, so this coincides with Python's numbering). -/
abbrev Groups := List (List Char)

abbrev MCont := List Char → Groups → Option Groups

/-- A matcher: consumes a prefix of the input, extends the capture list, and
calls the continuation; `none` triggers backtracking in the caller. -/
abbrev M := List Char → Groups → MCont → Option Groups

/-- A literal, e.g. `how` in a regex. -/
def litM : List Char → M
  | [] => fun cs gs k => k cs gs
  | c :: l => fun cs gs k =>
    match cs with
    | [] => none
    | x :: cs' => if x = c then litM l cs' gs k else none

def litS (s : String) : M := litM s.data

/-- A single-character class, e.g. `\w`. -/
def clsM (p : Char → Bool) : M := fun cs gs k =>
  match cs with
  | [] => none
  | x :: cs' => if p x then k cs' gs else none

def seqM (a b : M) : M := fun cs gs k => a cs gs (fun cs' gs' => b cs' gs' k)

/-- Ordered alternation `a|b`. -/
def altM (a b : M) : M := fun cs gs k => (a cs gs k).orElse (fun _ => b cs gs k)

/-- Greedy option `a?`. -/
def optM (a : M) : M := fun cs gs k => (a cs gs k).orElse (fun _ => k cs gs)

/-- Greedy Kleene star of a character class, `p*`: consume as many `p`-chars
as possible, backtracking to shorter matches when the continuation fails. -/
def starM (p : Char → Bool) : M
  | [], gs, k => k [] gs
  | c :: cs, gs, k =>
    if p c then (starM p cs gs k).orElse (fun _ => k (c :: cs) gs)
    else k (c :: cs) gs

/-- `p+` for a character class. -/
def plusM (p : Char → Bool) : M := seqM (clsM p) (starM p)

/-- A capture group: records the consumed span. -/
def groupM (a : M) : M := fun cs gs k =>
  a cs gs (fun cs' gs' => k cs' (gs' ++ [cs.take (cs.length - cs'.length)]))

/-- Sequencing of a whole regex written as a list. -/
def seqs : List M → M
  | [] => fun cs gs k => k cs gs
  | m :: ms => seqM m (seqs ms)

/-- Ordered alternation of a list (left to right, as in a regex). -/
def alts : List M → M
  | [] => fun _ _ _ => none
  | [m] => m
  | m :: ms => altM m (alts ms)

/-- Anchored match attempt (Python `pattern.match` at one position). -/
def matchAtM (m : M) (cs : List Char) : Option Groups :=
  m cs [] (fun _ gs => some gs)

/-- `re.search`: try each start position left to right. -/
def searchM (m : List Char → Option Groups) : List Char → Option Groups
  | [] => m []
  | c :: cs => (m (c :: cs)).orElse (fun _ => searchM m cs)

/-- Python `\w` (ASCII fragment: the questions handled here are ASCII). -/
def isWordCh (c : Char) : Bool := c.isAlphanum || c == '_'

/-- Python `\s`. -/
def isPySpace (c : Char) : Bool :=
  c == ' ' || c == '\t' || c == '\n' || c == '\r' ||
  c == Char.ofNat 11 || c == Char.ofNat 12

def wsP : M := plusM isPySpace
def wsS : M := starM isPySpace
def wordP : M := plusM isWordCh
def digitP : M := plusM Char.isDigit
/-- `[s]?` -/
def sOpt : M := optM (litS "s")
/-- `(\w+\d+)` — a course token. -/
def courseTokG : M := groupM (seqM wordP digitP)
/-- `(\w+)` -/
def wordG : M := groupM wordP
/-- `(.+)` -/
def dotG : M := groupM (plusM (fun c => c != '\n'))
/-- `\w+(?:\s+\w+)?` — an optionally two-word name. -/
def nameTok : M := seqs [wordP, optM (seqs [wsP, wordP])]
/-- `(?:dr\.?|professor)` -/
def drProf : M := alts [seqs [litS "dr", optM (litS ".")], litS "professor"]
/-- `(?:the\s+)?` -/
def theOpt : M := optM (seqs [litS "the", wsP])

/-- `(course[s]?|facult(?:y|ies)|department[s]?|professor[s]?)` -/
def entCls1 : M := groupM (alts
  [seqM (litS "course") sOpt,
   seqM (litS "facult") (alts [litS "y", litS "ies"]),
   seqM (litS "department") sOpt,
   seqM (litS "professor") sOpt])

/-- `(course[s]?|facult(?:y|ies)|department[s]?)` -/
def entCls2 : M := groupM (alts
  [seqM (litS "course") sOpt,
   seqM (litS "facult") (alts [litS "y", litS "ies"]),
   seqM (litS "department") sOpt])

/-- `how\s+many\s+(course[s]?|facult(?:y|ies)|department[s]?|professor[s]?)` -/
def p01 : M := seqs [litS "how", wsP, litS "many", wsP, entCls1]
/-- `(?:total\s+)?number\s+of\s+(course[s]?|facult(?:y|ies)|department[s]?)` -/
def p02 : M := seqs [optM (seqs [litS "total", wsP]), litS "number", wsP,
  litS "of", wsP, entCls2]
/-- `compare\s+(\w+\d+)\s+(?:and|with|to|vs)\s+(\w+\d+)` -/
def p03 : M := seqs [litS "compare", wsP, courseTokG, wsP,
  alts [litS "and", litS "with", litS "to", litS "vs"], wsP, courseTokG]
/-- `difference\s+between\s+(\w+\d+)\s+and\s+(\w+\d+)` -/
def p04 : M := seqs [litS "difference", wsP, litS "between", wsP, courseTokG,
  wsP, litS "and", wsP, courseTokG]
/-- `all\s+(?:the\s+)?prerequisite[s]?\s+(?:for|of|to\s+take)\s+(\w+\d+)` -/
def p05 : M := seqs [litS "all", wsP, theOpt, litS "prerequisite", sOpt, wsP,
  alts [litS "for", litS "of", seqs [litS "to", wsP, litS "take"]], wsP, courseTokG]
/-- `all\s+(?:the\s+)?prerequisite[s]?.*including\s+transitive` -/
def p06 : M := seqs [litS "all", wsP, theOpt, litS "prerequisite", sOpt,
  starM (fun c => c != '\n'), litS "including", wsP, litS "transitive"]
/-- `(?:what\s+)?prerequisite[s]?\s+do\s+i\s+need\s+to\s+take` -/
def p07 : M := seqs [optM (seqs [litS "what", wsP]), litS "prerequisite", sOpt,
  wsP, litS "do", wsP, litS "i", wsP, litS "need", wsP, litS "to", wsP, litS "take"]
/-- `what\s+(?:do\s+i\s+need|are\s+the\s+requirements)\s+(?:to\s+take|for)` -/
def p08 : M := seqs [litS "what", wsP,
  alts [seqs [litS "do", wsP, litS "i", wsP, litS "need"],
        seqs [litS "are", wsP, litS "the", wsP, litS "requirements"]], wsP,
  alts [seqs [litS "to", wsP, litS "take"], litS "for"]]
/-- `prerequisite\s+chain\s+for` -/
def p09 : M := seqs [litS "prerequisite", wsP, litS "chain", wsP, litS "for"]
/-- `(?:what\s+are\s+)?(?:the\s+)?prerequisite[s]?\s+(?:for|of)\s+(\w+\d+)` -/
def p10 : M := seqs [optM (seqs [litS "what", wsP, litS "are", wsP]), theOpt,
  litS "prerequisite", sOpt, wsP, alts [litS "for", litS "of"], wsP, courseTokG]
/-- `(?:list\s+)?(?:all\s+)?(undergraduate|graduate)\s+course[s]?` -/
def p11 : M := seqs [optM (seqs [litS "list", wsP]), optM (seqs [litS "all", wsP]),
  groupM (alts [litS "undergraduate", litS "graduate"]), wsP, litS "course", sOpt]
/-- `(undergraduate|graduate)\s+level\s+course[s]?` -/
def p12 : M := seqs [groupM (alts [litS "undergraduate", litS "graduate"]), wsP,
  litS "level", wsP, litS "course", sOpt]
/-- `(?:who\s+is\s+)?(?:the\s+)?head\s+of\s+(?:the\s+)?(\w+)(?:\s+department)?` -/
def p13 : M := seqs [optM (seqs [litS "who", wsP, litS "is", wsP]), theOpt,
  litS "head", wsP, litS "of", wsP, theOpt, wordG, optM (seqs [wsP, litS "department"])]
/-- `(\w+)\s+department\s+head` -/
def p14 : M := seqs [wordG, wsP, litS "department", wsP, litS "head"]
/-- `(?:what\s+)?course[s]?\s+require\s+(\w+\d+)` -/
def p15 : M := seqs [optM (seqs [litS "what", wsP]), litS "course", sOpt, wsP,
  litS "require", wsP, courseTokG]
/-- `which\s+course[s]?\s+(?:need|require)\s+(\w+\d+)` -/
def p16 : M := seqs [litS "which", wsP, litS "course", sOpt, wsP,
  alts [litS "need", litS "require"], wsP, courseTokG]
/-- `who\s+teaches?\s+(\w+\d+)` -/
def p17 : M := seqs [litS "who", wsP, litS "teache", sOpt, wsP, courseTokG]
/-- `instructor[s]?\s+(?:for|of)\s+(\w+\d+)` -/
def p18 : M := seqs [litS "instructor", sOpt, wsP, alts [litS "for", litS "of"],
  wsP, courseTokG]
/-- `(\w+\d+)\s+(?:is\s+)?taught\s+by` -/
def p19 : M := seqs [courseTokG, wsP, optM (seqs [litS "is", wsP]), litS "taught",
  wsP, litS "by"]
/-- `(?:tell\s+me\s+about|what\s+is|describe|info\s+(?:about|on))\s+(?:the\s+)?(?:course\s+)?(\w+\d+)` -/
def p20 : M := seqs [alts
    [seqs [litS "tell", wsP, litS "me", wsP, litS "about"],
     seqs [litS "what", wsP, litS "is"],
     litS "describe",
     seqs [litS "info", wsP, alts [litS "about", litS "on"]]], wsP, theOpt,
  optM (seqs [litS "course", wsP]), courseTokG]
/-- `(\w+\d+)\s+(?:course\s+)?(?:info|information|details)` -/
def p21 : M := seqs [courseTokG, wsP, optM (seqs [litS "course", wsP]),
  alts [litS "info", litS "information", litS "details"]]
/-- `(?:tell\s+me\s+about|what\s+is|describe)\s+(?:the\s+)?(\w+)\s+department` -/
def p22 : M := seqs [alts
    [seqs [litS "tell", wsP, litS "me", wsP, litS "about"],
     seqs [litS "what", wsP, litS "is"],
     litS "describe"], wsP, theOpt, wordG, wsP, litS "department"]
/-- `(?:info|information|details)\s+(?:about|on)\s+(?:the\s+)?(\w+)\s+department` -/
def p23 : M := seqs [alts [litS "info", litS "information", litS "details"], wsP,
  alts [litS "about", litS "on"], wsP, theOpt, wordG, wsP, litS "department"]
/-- `(?:what\s+)?course[s]?\s+(?:are\s+)?(?:offered\s+)?(?:in|by)\s+(?:the\s+)?(\w+)\s*(?:department)?` -/
def p24 : M := seqs [optM (seqs [litS "what", wsP]), litS "course", sOpt, wsP,
  optM (seqs [litS "are", wsP]), optM (seqs [litS "offered", wsP]),
  alts [litS "in", litS "by"], wsP, theOpt, wordG, wsS, optM (litS "department")]
/-- `list\s+(?:all\s+)?(\w+)\s+course[s]?` -/
def p25 : M := seqs [litS "list", wsP, optM (seqs [litS "all", wsP]), wordG, wsP,
  litS "course", sOpt]
/-- `(\w+)\s+department\s+course[s]?` -/
def p26 : M := seqs [wordG, wsP, litS "department", wsP, litS "course", sOpt]
/-- `(?:who\s+are\s+)?(?:the\s+)?facult(?:y|ies)\s+in\s+(?:the\s+)?(\w+)` -/
def p27 : M := seqs [optM (seqs [litS "who", wsP, litS "are", wsP]), theOpt,
  litS "facult", alts [litS "y", litS "ies"], wsP, litS "in", wsP, theOpt, wordG]
/-- `professors?\s+in\s+(?:the\s+)?(\w+)` -/
def p28 : M := seqs [litS "professor", sOpt, wsP, litS "in", wsP, theOpt, wordG]
/-- `who\s+teaches?\s+(?:in\s+)?(?:the\s+)?(\w+)\s+department` -/
def p29 : M := seqs [litS "who", wsP, litS "teache", sOpt, wsP,
  optM (seqs [litS "in", wsP]), theOpt, wordG, wsP, litS "department"]
/-- `(?:what\s+)?course[s]?\s+(?:does|is)\s+(?:dr\.?|professor)?\s*(\w+(?:\s+\w+)?)\s+teach` -/
def p30 : M := seqs [optM (seqs [litS "what", wsP]), litS "course", sOpt, wsP,
  alts [litS "does", litS "is"], wsP, optM drProf, wsS, groupM nameTok, wsP,
  litS "teach"]
/-- `(?:dr\.?|professor)?\s*(\w+)'?s?\s+course[s]?` (the apostrophe is written
via its code point). -/
def p31 : M := seqs [optM drProf, wsS, wordG,
  optM (clsM (fun c => c == Char.ofNat 39)), sOpt, wsP, litS "course", sOpt]
/-- `(?:who\s+)?(?:does\s+)?research\s+(?:on|in|about)\s+(.+)` -/
def p32 : M := seqs [optM (seqs [litS "who", wsP]), optM (seqs [litS "does", wsP]),
  litS "research", wsP, alts [litS "on", litS "in", litS "about"], wsP, dotG]
/-- `facult(?:y|ies)\s+(?:working\s+)?(?:on|in)\s+(.+)` -/
def p33 : M := seqs [litS "facult", alts [litS "y", litS "ies"], wsP,
  optM (seqs [litS "working", wsP]), alts [litS "on", litS "in"], wsP, dotG]
/-- `(machine\s+learning|ai|artificial\s+intelligence|nlp|data\s+mining)\s+(?:research(?:ers?)?|facult(?:y|ies))` -/
def p34 : M := seqs [groupM (alts
    [seqs [litS "machine", wsP, litS "learning"], litS "ai",
     seqs [litS "artificial", wsP, litS "intelligence"], litS "nlp",
     seqs [litS "data", wsP, litS "mining"]]), wsP,
  alts [seqs [litS "research", optM (seqs [litS "er", sOpt])],
        seqs [litS "facult", alts [litS "y", litS "ies"]]]]
/-- `can\s+(?:i|a\s+student)\s+take\s+(\w+\d+)` -/
def p35 : M := seqs [litS "can", wsP,
  alts [litS "i", seqs [litS "a", wsP, litS "student"]], wsP, litS "take", wsP,
  courseTokG]
/-- `(?:who\s+is|tell\s+me\s+about)\s+(?:dr\.?|professor)?\s*(\w+(?:\s+\w+)?)` -/
def p36 : M := seqs [alts
    [seqs [litS "who", wsP, litS "is"],
     seqs [litS "tell", wsP, litS "me", wsP, litS "about"]], wsP, optM drProf,
  wsS, groupM nameTok]
/-- `(?:search|find|look\s+for)\s+(?:course[s]?\s+)?(?:about|on|related\s+to)?\s*(.+)` -/
def p37 : M := seqs [alts [litS "search", litS "find", seqs [litS "look", wsP, litS "for"]],
  wsP, optM (seqs [litS "course", sOpt, wsP]),
  optM (alts [litS "about", litS "on", seqs [litS "related", wsP, litS "to"]]),
  wsS, dotG]
/-- `(?:are\s+there\s+)?(?:any\s+)?course[s]?\s+(?:about|on|related\s+to)\s+(.+)` -/
def p38 : M := seqs [optM (seqs [litS "are", wsP, litS "there", wsP]),
  optM (seqs [litS "any", wsP]), litS "course", sOpt, wsP,
  alts [litS "about", litS "on", seqs [litS "related", wsP, litS "to"]], wsP, dotG]
/-- `course[s]?\s+(?:with(?:out)?|having)\s+no\s+prerequisite[s]?` -/
def p39 : M := seqs [litS "course", sOpt, wsP,
  alts [seqM (litS "with") (optM (litS "out")), litS "having"], wsP, litS "no",
  wsP, litS "prerequisite", sOpt]

/-! ### Parameter-extraction helpers of `MockLLMProvider` -/

/-- `MockLLMProvider.COURSE_NAME_MAP`, in dict insertion order. -/
def mockCourseNameMap : List (String × String) :=
  [("machine learning", "CS401"), ("natural language processing", "CS402"),
   ("nlp", "CS402"), ("algorithms", "CS301"), ("data structures", "CS201"),
   ("programming", "CS101"), ("intro to programming", "CS101"),
   ("introduction to programming", "CS101"), ("cybersecurity", "CS450"),
   ("computer networks", "CS350"), ("networks", "CS350"),
   ("quantum mechanics", "PHYS301"), ("linear algebra", "MATH201"),
   ("calculus", "MATH101"), ("discrete mathematics", "MATH301"),
   ("discrete math", "MATH301"), ("probability", "MATH401"),
   ("physics", "PHYS101"), ("circuits", "EE101"), ("digital logic", "EE201"),
   ("signal processing", "EE301")]

/-- Does `needle` occur as a prefix of `hay`? -/
def startsWithL : List Char → List Char → Bool
  | [], _ => true
  | _ :: _, [] => false
  | p :: ps, c :: cs => p == c && startsWithL ps cs

/-- Python `needle in hay` for strings (substring containment). -/
def containsL (needle : List Char) : List Char → Bool
  | [] => needle.isEmpty
  | c :: t => startsWithL needle (c :: t) || containsL needle t

/-- Python `s.strip()`. -/
def stripL (cs : List Char) : List Char :=
  ((cs.dropWhile isPySpace).reverse.dropWhile isPySpace).reverse

/-- Python `s.rstrip('s')` — strips *all* trailing `'s'` characters. -/
def rstripS (s : String) : String :=
  ⟨(s.data.reverse.dropWhile (fun c => c == 's')).reverse⟩

/-- Python `s.replace(old, new)`: leftmost non-overlapping replacement. -/
def replaceSub (old new : List Char) : List Char → List Char
  | [] => []
  | c :: cs =>
    if h : old ≠ [] ∧ startsWithL old (c :: cs) then
      new ++ replaceSub old new ((c :: cs).drop old.length)
    else
      c :: replaceSub old new cs
termination_by cs => cs.length
decreasing_by
  · simp only [List.length_drop, List.length_cons]
    have : 1 ≤ old.length := List.length_pos.mpr h.1
    omega
  · simp

/-- `m.group(1).rstrip('s').replace('ies', 'y')` in the count-entities param
lambdas. -/
def entityNorm (s : String) : String :=
  ⟨replaceSub "ies".data "y".data (rstripS s).data⟩

/-- `_normalize_dept_code(dept)`. -/
def normalizeDeptCode (dept : String) : String :=
  let deptMap : List (String × String) :=
    [("computer science", "CS"), ("computer", "CS"), ("cs", "CS"), ("comp", "CS"),
     ("mathematics", "MATH"), ("math", "MATH"), ("maths", "MATH"),
     ("physics", "PHYS"), ("phys", "PHYS"),
     ("electrical engineering", "EE"), ("electrical", "EE"), ("ee", "EE")]
  let low : String := ⟨dept.data.map Char.toLower⟩
  match deptMap.find? (fun kv => kv.1 == low) with
  | some kv => kv.2
  | none => strUpper dept

/-- `\b([A-Za-z]+\d+)\b` matched at the head of `cs` (the preceding-character
boundary is checked by the callers): a maximal ASCII-letter run, then a
maximal digit run, then a non-word character or the end.  Returns the token
and the rest. -/
def courseTokAt (cs : List Char) : Option (List Char × List Char) :=
  let letters := cs.takeWhile Char.isAlpha
  let rest1 := cs.drop letters.length
  let digits := rest1.takeWhile Char.isDigit
  let rest2 := rest1.drop digits.length
  if letters.isEmpty || digits.isEmpty then none
  else
    match rest2 with
    | [] => some (letters ++ digits, [])
    | c :: _ => if isWordCh c then none else some (letters ++ digits, rest2)

/-- First `\b([A-Za-z]+\d+)\b` occurrence (`prevW`: the previous character
was a word character, so no boundary here). -/
def findFirstTok (prevW : Bool) : List Char → Option (List Char)
  | [] => none
  | c :: rest =>
    match (if !prevW then (courseTokAt (c :: rest)).map (fun r => r.1) else none) with
    | some tok => some tok
    | none => findFirstTok (isWordCh c) rest

/-- `_extract_course_code(question)`: first course-code token upper-cased,
else the first course-name-map entry contained in the lower-cased question,
else the empty string. -/
def extractCourseCode (q : List Char) : String :=
  match findFirstTok false q with
  | some tok => strUpper ⟨tok⟩
  | none =>
    match mockCourseNameMap.find? (fun nc => containsL nc.1.data (q.map Char.toLower)) with
    | some nc => nc.2
    | none => ""

/-- `re.findall(r'\b([A-Za-z]+\d+)\b', question)`: all non-overlapping
occurrences, scanning resumes after each match.  Fuel-indexed for
structural recursion; the fuel `q.length` never runs out because every step
consumes at least one character. -/
def findToksAux : Nat → Bool → List Char → List (List Char)
  | 0, _, _ => []
  | _, _, [] => []
  | fuel + 1, prevW, c :: rest =>
    match (if !prevW then courseTokAt (c :: rest) else none) with
    | some r => r.1 :: findToksAux fuel true r.2
    | none => findToksAux fuel (isWordCh c) rest

/-- `_extract_completed_courses(question)`. -/
def extractCompletedCourses (q : List Char) : List String :=
  (findToksAux q.length false q).filterMap (fun tok =>
    let low : String := ⟨tok.map Char.toLower⟩
    if low == "cs401" || low == "take" then none else some (strUpper ⟨tok⟩))

/-! ### The ordered pattern table and `generate` -/

/-- Group `i + 1` of a match (Python `m.group(i+1)`), as a string. -/
def grp (gs : Groups) (i : Nat) : String := ⟨gs.getD i []⟩

/-- One `(pattern, query_type, param_fn)` entry of the mock pattern list. -/
structure PatEntry where
  pat : M
  queryType : String
  mkParams : Groups → Params

/-- The ordered pattern list built inside `MockLLMProvider.generate`; the
param lambdas close over the lower-cased question `lq` and the pre-resolved
course `rc`, as in the Python closures. -/
def mockPatterns (lq : List Char) (rc : Option String) : List PatEntry :=
  [⟨p01, "COUNT_ENTITIES", fun gs => [("entity_type", .s (entityNorm (grp gs 0)))]⟩,
   ⟨p02, "COUNT_ENTITIES", fun gs => [("entity_type", .s (entityNorm (grp gs 0)))]⟩,
   ⟨p03, "COMPARE_COURSES", fun gs =>
     [("course1", .s (strUpper (grp gs 0))), ("course2", .s (strUpper (grp gs 1)))]⟩,
   ⟨p04, "COMPARE_COURSES", fun gs =>
     [("course1", .s (strUpper (grp gs 0))), ("course2", .s (strUpper (grp gs 1)))]⟩,
   ⟨p05, "GET_ALL_PREREQUISITES", fun gs => [("course_code", .s (strUpper (grp gs 0)))]⟩,
   ⟨p06, "GET_ALL_PREREQUISITES", fun _ => [("course_code", .s (extractCourseCode lq))]⟩,
   ⟨p07, "GET_ALL_PREREQUISITES", fun _ =>
     [("course_code", .s (rc.getD (extractCourseCode lq)))]⟩,
   ⟨p08, "GET_ALL_PREREQUISITES", fun _ =>
     [("course_code", .s (rc.getD (extractCourseCode lq)))]⟩,
   ⟨p09, "GET_ALL_PREREQUISITES", fun _ =>
     [("course_code", .s (rc.getD (extractCourseCode lq)))]⟩,
   ⟨p10, "GET_PREREQUISITES", fun gs => [("course_code", .s (strUpper (grp gs 0)))]⟩,
   ⟨p11, "GET_COURSES_BY_LEVEL", fun gs => [("level", .s (grp gs 0))]⟩,
   ⟨p12, "GET_COURSES_BY_LEVEL", fun gs => [("level", .s (grp gs 0))]⟩,
   ⟨p13, "GET_DEPARTMENT_HEAD", fun gs => [("code", .s (normalizeDeptCode (grp gs 0)))]⟩,
   ⟨p14, "GET_DEPARTMENT_HEAD", fun gs => [("code", .s (normalizeDeptCode (grp gs 0)))]⟩,
   ⟨p15, "GET_COURSES_REQUIRING", fun gs => [("course_code", .s (strUpper (grp gs 0)))]⟩,
   ⟨p16, "GET_COURSES_REQUIRING", fun gs => [("course_code", .s (strUpper (grp gs 0)))]⟩,
   ⟨p17, "GET_COURSE_INSTRUCTORS", fun gs => [("course_code", .s (strUpper (grp gs 0)))]⟩,
   ⟨p18, "GET_COURSE_INSTRUCTORS", fun gs => [("course_code", .s (strUpper (grp gs 0)))]⟩,
   ⟨p19, "GET_COURSE_INSTRUCTORS", fun gs => [("course_code", .s (strUpper (grp gs 0)))]⟩,
   ⟨p20, "GET_COURSE_INFO", fun gs => [("course_code", .s (strUpper (grp gs 0)))]⟩,
   ⟨p21, "GET_COURSE_INFO", fun gs => [("course_code", .s (strUpper (grp gs 0)))]⟩,
   ⟨p22, "GET_DEPARTMENT_INFO", fun gs => [("code", .s (normalizeDeptCode (grp gs 0)))]⟩,
   ⟨p23, "GET_DEPARTMENT_INFO", fun gs => [("code", .s (normalizeDeptCode (grp gs 0)))]⟩,
   ⟨p24, "GET_COURSES_BY_DEPARTMENT", fun gs =>
     [("code", .s (normalizeDeptCode (grp gs 0)))]⟩,
   ⟨p25, "GET_COURSES_BY_DEPARTMENT", fun gs =>
     [("code", .s (normalizeDeptCode (grp gs 0)))]⟩,
   ⟨p26, "GET_COURSES_BY_DEPARTMENT", fun gs =>
     [("code", .s (normalizeDeptCode (grp gs 0)))]⟩,
   ⟨p27, "GET_FACULTY_BY_DEPARTMENT", fun gs =>
     [("code", .s (normalizeDeptCode (grp gs 0)))]⟩,
   ⟨p28, "GET_FACULTY_BY_DEPARTMENT", fun gs =>
     [("code", .s (normalizeDeptCode (grp gs 0)))]⟩,
   ⟨p29, "GET_FACULTY_BY_DEPARTMENT", fun gs =>
     [("code", .s (normalizeDeptCode (grp gs 0)))]⟩,
   ⟨p30, "GET_COURSES_TAUGHT_BY", fun gs => [("name", .s (grp gs 0))]⟩,
   ⟨p31, "GET_COURSES_TAUGHT_BY", fun gs => [("name", .s (grp gs 0))]⟩,
   ⟨p32, "GET_FACULTY_BY_RESEARCH", fun gs => [("area", .s ⟨stripL (gs.getD 0 [])⟩)]⟩,
   ⟨p33, "GET_FACULTY_BY_RESEARCH", fun gs => [("area", .s ⟨stripL (gs.getD 0 [])⟩)]⟩,
   ⟨p34, "GET_FACULTY_BY_RESEARCH", fun gs => [("area", .s (grp gs 0))]⟩,
   ⟨p35, "CAN_TAKE_COURSE", fun gs =>
     [("course_code", .s (strUpper (grp gs 0))),
      ("completed_courses", .strs (extractCompletedCourses lq))]⟩,
   ⟨p36, "GET_FACULTY_INFO", fun gs => [("name", .s (grp gs 0))]⟩,
   ⟨p37, "SEARCH_COURSES", fun gs => [("query", .s ⟨stripL (gs.getD 0 [])⟩)]⟩,
   ⟨p38, "SEARCH_COURSES", fun gs => [("query", .s ⟨stripL (gs.getD 0 [])⟩)]⟩,
   ⟨p39, "SEARCH_COURSES", fun _ => [("query", .s "no prerequisites")]⟩]

/-- The `for pattern, query_type, param_fn in patterns:` loop: first pattern
whose `re.search` hits wins. -/
def firstMatch : List PatEntry → List Char → Option (String × Params)
  | [], _ => none
  | e :: es, lq =>
    match searchM (matchAtM e.pat) lq with
    | some gs => some (e.queryType, e.mkParams gs)
    | none => firstMatch es lq

/-- The structured content of the JSON text returned by
`MockLLMProvider.generate`.  The mock always emits `json.dumps` of a dict of
exactly this shape and `parse_question` immediately `json.loads`es it (the
code-fence cleanup never fires on a string starting with a brace), so the
serialization round-trip is collapsed.  Confidences are the literal constants
0.3 / 0.85 / 0.5, modelled as rationals. -/
structure MockResponse where
  queryType : String
  parameters : Params
  confidence : Rat
  deriving DecidableEq, Repr

/-- The mock confidence constants 0.85, 0.5 and 0.3 (Python float literals),
as exact rationals built from literal numerator/denominator so that they
evaluate by kernel reduction. -/
def mockConfHit : Rat := Rat.mk' 17 20

def mockConfFallback : Rat := Rat.mk' 1 2

def mockConfNoQuestion : Rat := Rat.mk' 3 10

/-- `re.search(r'Question:\s*"([^"]+)"', prompt)` followed by `.group(1)`. -/
def questionRe : M :=
  seqs [litS "Question:", wsS, litS "\"", groupM (plusM (fun c => c != '"')),
    litS "\""]

def extractQuestion (prompt : List Char) : Option (List Char) :=
  (searchM (matchAtM questionRe) prompt).map (fun gs => gs.getD 0 [])

/-- `resolved_course`: the first `COURSE_NAME_MAP` entry whose name occurs in
the (lower-cased) question. -/
def mockResolveCourse (lq : List Char) : Option String :=
  (mockCourseNameMap.find? (fun nc => containsL nc.1.data lq)).map (fun nc => nc.2)

/-- `MockLLMProvider.generate(prompt)`: extract the quoted question (no
match: a confidence-0.3 empty search); lower-case it; pre-resolve a course
name; run the ordered pattern list (hit: confidence 0.85); otherwise fall
back to a search over the lower-cased question text with confidence 0.5. -/
def mockGenerate (prompt : String) : MockResponse :=
  match extractQuestion prompt.data with
  | none => { queryType := "SEARCH_COURSES", parameters := [("query", .s "")],
              confidence := mockConfNoQuestion }
  | some qraw =>
    let lq := qraw.map Char.toLower
    let rc := mockResolveCourse lq
    match firstMatch (mockPatterns lq rc) lq with
    | some (qt, params) => { queryType := qt, parameters := params,
                             confidence := mockConfHit }
    | none => { queryType := "SEARCH_COURSES", parameters := [("query", .s ⟨lq⟩)],
                confidence := mockConfFallback }

/-- `LLMInterface.PARSE_SYSTEM_PROMPT` (braces written via code points). -/
def parseSystemPrompt : String :=
  "You are a query parser for a university knowledge base. \nYour task is to analyze natural "
  ++ "language questions and extract structured query information.\n\nThe knowledge base contain"
  ++ "s information about:\n- Departments (CS, MATH, PHYS, EE)\n- Faculty members and their rese"
  ++ "arch areas\n- Courses with codes like CS101, MATH201, etc.\n- Prerequisites relationships "
  ++ "between courses\n\nAvailable query types:\n- GET_COURSE_INFO: Get details about a specific"
  ++ " course\n- GET_FACULTY_INFO: Get details about a faculty member\n- GET_DEPARTMENT_INFO: Ge"
  ++ "t details about a department\n- GET_PREREQUISITES: Get direct prerequisites for a course\n"
  ++ "- GET_ALL_PREREQUISITES: Get ALL prerequisites (including transitive) for a course\n- GET_"
  ++ "COURSES_BY_DEPARTMENT: List courses in a department\n- GET_FACULTY_BY_DEPARTMENT: List fac"
  ++ "ulty in a department\n- GET_COURSES_TAUGHT_BY: List courses taught by a faculty member\n- "
  ++ "GET_COURSE_INSTRUCTORS: Get who teaches a course\n- GET_DEPARTMENT_HEAD: Get the head of a"
  ++ " department\n- CAN_TAKE_COURSE: Check if prerequisites are met (needs completed_courses li"
  ++ "st)\n- GET_COURSES_REQUIRING: Find courses that require a given course\n- GET_COURSES_BY_L"
  ++ "EVEL: List undergraduate or graduate courses\n- GET_FACULTY_BY_RESEARCH: Find faculty by r"
  ++ "esearch area\n- SEARCH_COURSES: Search courses by keyword\n- COUNT_ENTITIES: Count courses"
  ++ ", faculty, etc.\n- COMPARE_COURSES: Compare two courses\n\nOutput JSON with:\n\x7b\n  \"qu"
  ++ "ery_type\": \"<QUERY_TYPE>\",\n  \"parameters\": \x7b<relevant parameters>\x7d,\n  \"confi"
  ++ "dence\": <0.0 to 1.0>\n\x7d\n\nParameter examples:\n- course_code: \"CS101\", \"MATH201\""
  ++ "\n- name: \"Smith\", \"Alice Smith\"\n- code: \"CS\", \"MATH\" (department code)\n- level:"
  ++ " \"undergraduate\" or \"graduate\"\n- area: \"Machine Learning\", \"AI\"\n- completed_cour"
  ++ "ses: [\"CS101\", \"MATH101\"]\n- query: \"programming\" (search term)\n- course1, course2:"
  ++ " for comparing courses\n"

/-- The prompt `parse_question` builds around the question. -/
def buildPrompt (question : String) : String :=
  parseSystemPrompt ++ "\n\nQuestion: \"" ++ question
  ++ "\"\n\nRespond with only the JSON object, no additional text."

/-- `ParsedQuery`. -/
structure ParsedQuery where
  originalQuestion : String
  queryType : QueryType
  parameters : Params
  confidence : Rat
  deriving DecidableEq, Repr

def allQueryTypes : List QueryType :=
  [.GET_COURSE_INFO, .GET_FACULTY_INFO, .GET_DEPARTMENT_INFO, .GET_PREREQUISITES,
   .GET_ALL_PREREQUISITES, .GET_COURSES_BY_DEPARTMENT, .GET_FACULTY_BY_DEPARTMENT,
   .GET_COURSES_TAUGHT_BY, .GET_COURSE_INSTRUCTORS, .GET_DEPARTMENT_HEAD,
   .CAN_TAKE_COURSE, .GET_COURSES_REQUIRING, .GET_COURSES_BY_LEVEL,
   .GET_FACULTY_BY_RESEARCH, .SEARCH_COURSES, .COUNT_ENTITIES, .COMPARE_COURSES]

/-- `QueryType[query_type_str]` with the `KeyError` fallback to
`SEARCH_COURSES`. -/
def strToQueryType (s : String) : QueryType :=
  match allQueryTypes.find? (fun qt => qt.name == s) with
  | some qt => qt
  | none => .SEARCH_COURSES

/-- `LLMInterface.parse_question(question)` with the mock provider: build the
prompt, run `generate`, read the structured response back (the
`json.loads` of the mock's `json.dumps` output always succeeds, so the
`JSONDecodeError` fallback is unreachable and not modelled). -/
def parseQuestion (question : String) : ParsedQuery :=
  let resp := mockGenerate (buildPrompt question)
  { originalQuestion := question,
    queryType := strToQueryType resp.queryType,
    parameters := resp.parameters,
    confidence := resp.confidence }

/-! ## Sample data for concrete theorems and witnesses -/

/-- A small input document of the §6 schema: two departments, one faculty
member who both belongs to and heads the CS department, three courses, one
prerequisite pair. -/
def sampleDoc : Document :=
  { departments :=
      [{ id := "cs", name := "Computer Science", code := "CS", facultyHead := some "f1" },
       { id := "math", name := "Mathematics", code := "MATH", facultyHead := none }],
    faculty :=
      [{ id := "f1", name := "Alice Smith", title := "Professor", department := "cs",
         email := none, researchAreas := none }],
    courses :=
      [{ id := "cs101", code := "CS101", name := "Intro to Programming", credits := 3,
         level := "undergraduate", department := "cs", description := none,
         taughtBy := some ["f1"] },
       { id := "math101", code := "MATH101", name := "Calculus I", credits := 4,
         level := "undergraduate", department := "math", description := none,
         taughtBy := none },
       { id := "cs201", code := "CS201", name := "Data Structures", credits := 3,
         level := "undergraduate", department := "cs", description := none,
         taughtBy := none }],
    prerequisites := [{ course := "cs201", requires := "cs101" }] }

def sampleGraph : DiGraph := buildGraph sampleDoc

/-- A two-node prerequisite cycle `c → a → c`. -/
def cycleGraph : DiGraph :=
  ⟨[("c", []), ("a", [])],
   [("c", "a", [("relation", .s "prerequisite")]),
    ("a", "c", [("relation", .s "prerequisite")])]⟩

/-- An acyclic chain `c → a → b`. -/
def chainGraph : DiGraph :=
  ⟨[("c", []), ("a", []), ("b", [])],
   [("c", "a", [("relation", .s "prerequisite")]),
    ("a", "b", [("relation", .s "prerequisite")])]⟩

/-- The comparison record of a successful run of the comparison rule. -/
def comparisonOf (g : DiGraph) (params : Params) : Option Comparison :=
  match ruleCompareCourses g params with
  | .ok r =>
    match r.answer with
    | some (.comparison c) => some c
    | none => none
  | .error _ => none

/-! ## C1 — the `same_department` field of the comparison answer -/

/-- C1: the spec claims `same_department` is true iff the two compared
courses belong to the same department.  In `sampleGraph`, `cs101` belongs to
department `cs` and `math101` to department `math` (first two conjuncts), yet
the comparison handler reports `same_department = true` (last conjunct): the
handler evaluates `course.get('department')` on the course *node dicts*,
which never carry a `department` key (membership lives on the `belongs_to`
edge, reachable via `get_course_department`), so the comparison is always
`None == None`.  The spec states the evident intent; the code is a slip. -/
theorem c1_compare_same_department_always_true :
    (getCourseDepartment sampleGraph "cs101").map (fun d => d.1) = some "cs"
  ∧ (getCourseDepartment sampleGraph "math101").map (fun d => d.1) = some "math"
  ∧ (comparisonOf sampleGraph
      [("course1", PVal.s "CS101"), ("course2", PVal.s "MATH101")]).map
        (fun c => c.sameDepartment) = some true := by decide

/-! ## C5 — the dispatcher boundary of `execute_query` -/

/-- C5: `execute_query` never raises — it is a total function of the rules
table, the query type and the params.  An unregistered query type yields a
failed result carrying the descriptive "Unknown query type" message; a
handler that raises (models as the `Except` error channel) has its exception
caught and converted into a failed result carrying the exception's message; a
normally returning handler's result is passed through. -/
theorem c5_execute_query_never_raises
    (rules : QueryType → Option (Params → Except String ReasoningResult))
    (qt : QueryType) (params : Params) :
    (rules qt = none →
      executeQuery rules qt params =
        { queryType := qt, answer := none, success := false, reasoningChain := [],
          errorMessage := some ("Unknown query type: " ++ qt.pyStr) })
  ∧ (∀ h e, rules qt = some h → h params = .error e →
      executeQuery rules qt params =
        { queryType := qt, answer := none, success := false, reasoningChain := [],
          errorMessage := some e })
  ∧ (∀ h r, rules qt = some h → h params = .ok r →
      executeQuery rules qt params = r) := by
  refine ⟨fun hnone => ?_, fun h e hh he => ?_, fun h r hh hok => ?_⟩
  · simp [executeQuery, hnone]
  · simp [executeQuery, hh, he]
  · simp [executeQuery, hh, hok]

theorem c5_execute_query_never_raises_witness :
    executeQuery (fun _ => none) .COMPARE_COURSES [] =
      { queryType := .COMPARE_COURSES, answer := none, success := false,
        reasoningChain := [],
        errorMessage := some ("Unknown query type: " ++ QueryType.pyStr .COMPARE_COURSES) }
  ∧ executeQuery (fun _ => some (fun _ => .error "boom")) .COMPARE_COURSES [] =
      { queryType := .COMPARE_COURSES, answer := none, success := false,
        reasoningChain := [], errorMessage := some "boom" } :=
  ⟨(c5_execute_query_never_raises (fun _ => none) .COMPARE_COURSES []).1 rfl,
   (c5_execute_query_never_raises (fun _ => some (fun _ => .error "boom"))
      .COMPARE_COURSES []).2.1 _ "boom" rfl rfl⟩

/-! ## C3 — `can_take_course` checks exactly the direct prerequisites -/

/-- C3: eligibility is true iff every direct-prerequisite id is among the
completed ids, and the missing list contains exactly the direct-prerequisite
ids not completed; transitive prerequisites play no role (the computation
reads only `get_prerequisites`). -/
theorem c3_can_take_iff_direct_complete (g : DiGraph) (c : String)
    (completed : List String) :
    ((canTakeCourse g c completed).1 = true ↔
      ∀ p ∈ (getPrerequisites g c).map (fun n => n.1), p ∈ completed)
  ∧ ∀ p, p ∈ (canTakeCourse g c completed).2 ↔
      (p ∈ (getPrerequisites g c).map (fun n => n.1) ∧ p ∉ completed) := by
  constructor
  · simp [canTakeCourse, List.isEmpty_iff, List.filter_eq_nil_iff]
  · intro p
    simp [canTakeCourse, List.mem_filter]

theorem c3_can_take_iff_direct_complete_witness :
    ((canTakeCourse sampleGraph "cs201" ["cs101"]).1 = true ↔
      ∀ p ∈ (getPrerequisites sampleGraph "cs201").map (fun n => n.1),
        p ∈ ["cs101"])
  ∧ ∀ p, p ∈ (canTakeCourse sampleGraph "cs201" ["cs101"]).2 ↔
      (p ∈ (getPrerequisites sampleGraph "cs201").map (fun n => n.1) ∧
        p ∉ ["cs101"]) :=
  c3_can_take_iff_direct_complete sampleGraph "cs201" ["cs101"]

/-! ## C9 — traversal operations on an absent id -/

lemma hasNode_false_notMem {g : DiGraph} {nid : String}
    (hn : g.hasNode nid = false) : ∀ n ∈ g.nodes, (n.1 == nid) = false := by
  intro n hmem
  by_contra hne
  have : g.hasNode nid = true := by
    simp only [DiGraph.hasNode, List.any_eq_true]
    exact ⟨n, hmem, by simpa using hne⟩
  simp [this] at hn

lemma nbunch_eq_nil (g : DiGraph) (nid : String)
    (hn : g.hasNode nid = false)
    (hc : ∀ ch ∈ nid.data, g.hasNode (String.mk [ch]) = false) :
    nbunch g nid = [] := by
  rw [nbunch, hn]
  simp only [Bool.false_eq_true, if_false, List.map_eq_nil_iff,
    List.filter_eq_nil_iff]
  intro ch hch
  simp [hc ch hch]

lemma outEdges_eq_nil (g : DiGraph) (nid : String)
    (hn : g.hasNode nid = false)
    (hc : ∀ ch ∈ nid.data, g.hasNode (String.mk [ch]) = false) :
    outEdges g nid = [] := by
  rw [outEdges, nbunch_eq_nil g nid hn hc]; rfl

lemma inEdges_eq_nil (g : DiGraph) (nid : String)
    (hn : g.hasNode nid = false)
    (hc : ∀ ch ∈ nid.data, g.hasNode (String.mk [ch]) = false) :
    inEdges g nid = [] := by
  rw [inEdges, nbunch_eq_nil g nid hn hc]; rfl

/-- C9 (as amended): for an id that is not a node (and whose individual
characters are not node ids either — the nbunch quirk), the edge-traversal
operations return *empty lists*, and `get_node` returns absent.  No exception
is raised anywhere: `networkx` treats the missing string id as an iterable of
single-character node candidates and silently skips absent candidates. -/
theorem c9_missing_id_returns_empty (g : DiGraph) (nid : String)
    (hn : g.hasNode nid = false)
    (hc : ∀ ch ∈ nid.data, g.hasNode (String.mk [ch]) = false) :
    getPrerequisites g nid = [] ∧ getAllPrerequisites g nid = []
  ∧ getCoursesRequiring g nid = [] ∧ getNode g nid = none := by
  have ho := outEdges_eq_nil g nid hn hc
  have hi := inEdges_eq_nil g nid hn hc
  refine ⟨?_, ?_, ?_, ?_⟩
  · rw [getPrerequisites, ho]; rfl
  · have hstep : gapAux g (bfsFuel g) [nid] [] = some [] := by
      rw [bfsFuel]
      simp [gapAux, ho, bfsExpand]
    rw [getAllPrerequisites, allPrereqIds, hstep]; rfl
  · rw [getCoursesRequiring, hi]; rfl
  · rw [getNode, List.find?_eq_none.mpr]
    · rfl
    · intro n hmem
      simp [hasNode_false_notMem hn n hmem]

/-- C9, the claim as stated is false: on `sampleGraph` and the absent id
`"ghost"`, the three edge-traversal operations return `[]` (they were claimed
to raise rather than return an empty list). -/
theorem c9_counterexample_missing_id_empty :
    sampleGraph.hasNode "ghost" = false
  ∧ getPrerequisites sampleGraph "ghost" = []
  ∧ getAllPrerequisites sampleGraph "ghost" = []
  ∧ getCoursesRequiring sampleGraph "ghost" = []
  ∧ getNode sampleGraph "ghost" = none := by decide

theorem c9_missing_id_returns_empty_witness :
    getPrerequisites sampleGraph "zz9" = []
  ∧ getAllPrerequisites sampleGraph "zz9" = []
  ∧ getCoursesRequiring sampleGraph "zz9" = []
  ∧ getNode sampleGraph "zz9" = none :=
  c9_missing_id_returns_empty sampleGraph "zz9" (by decide) (by decide)

/-! ## Properties of the breadth-first loop -/

lemma outEdges_subset (g : DiGraph) (nid : String) :
    ∀ e ∈ outEdges g nid, e ∈ g.edges := by
  intro e he
  simp only [outEdges, List.mem_flatMap, List.mem_filter] at he
  obtain ⟨s, _, hmem, _⟩ := he
  exact hmem

lemma inEdges_subset (g : DiGraph) (nid : String) :
    ∀ e ∈ inEdges g nid, e ∈ g.edges := by
  intro e he
  simp only [inEdges, List.mem_flatMap, List.mem_filter] at he
  obtain ⟨s, _, hmem, _⟩ := he
  exact hmem

lemma getNode_fst {g : DiGraph} {x : String} {n : String × Attrs}
    (h : getNode g x = some n) : n.1 = x := by
  simp only [getNode, Option.map_eq_some'] at h
  obtain ⟨m, _, hm⟩ := h
  rw [← hm]

/-- The visited set after one expansion pass is the old one extended by the
newly enqueued ids. -/
lemma bfsExpand_fst (es : List (String × String × Attrs)) (vis : List String) :
    (bfsExpand es vis).1 = vis ++ (bfsExpand es vis).2 := by
  induction es generalizing vis with
  | nil => simp [bfsExpand]
  | cons e es ih =>
    rw [bfsExpand]
    split
    · rw [ih (vis ++ [e.2.1])]
      simp
    · exact ih vis

lemma bfsExpand_new_not_mem (es : List (String × String × Attrs))
    (vis : List String) : ∀ t ∈ (bfsExpand es vis).2, t ∉ vis := by
  induction es generalizing vis with
  | nil => simp [bfsExpand]
  | cons e es ih =>
    rw [bfsExpand]
    split
    · rename_i hcond
      intro t ht
      rcases List.mem_cons.mp ht with heq | hmem
      · subst heq
        intro habs
        simp only [Bool.and_eq_true, Bool.not_eq_true'] at hcond
        have hc2 : vis.contains e.2.1 = true := List.elem_eq_true_of_mem habs
        rw [hcond.2] at hc2
        exact Bool.noConfusion hc2
      · intro habs
        exact ih (vis ++ [e.2.1]) t hmem (List.mem_append_left _ habs)
    · exact ih vis

lemma bfsExpand_new_nodup (es : List (String × String × Attrs))
    (vis : List String) : (bfsExpand es vis).2.Nodup := by
  induction es generalizing vis with
  | nil => simp [bfsExpand]
  | cons e es ih =>
    rw [bfsExpand]
    split
    · refine List.nodup_cons.mpr ⟨?_, ih (vis ++ [e.2.1])⟩
      intro habs
      exact bfsExpand_new_not_mem es (vis ++ [e.2.1]) _ habs
        (List.mem_append_right _ (by simp))
    · exact ih vis

lemma bfsExpand_new_source (es : List (String × String × Attrs))
    (vis : List String) :
    ∀ t ∈ (bfsExpand es vis).2, ∃ e ∈ es, isPrereqE e = true ∧ e.2.1 = t := by
  induction es generalizing vis with
  | nil => simp [bfsExpand]
  | cons e es ih =>
    rw [bfsExpand]
    split
    · rename_i hcond
      intro t ht
      rcases List.mem_cons.mp ht with rfl | hmem
      · exact ⟨e, List.mem_cons_self .., by
          simp only [Bool.and_eq_true] at hcond
          exact hcond.1, rfl⟩
      · obtain ⟨e', he', hp, htgt⟩ := ih (vis ++ [e.2.1]) t hmem
        exact ⟨e', List.mem_cons_of_mem _ he', hp, htgt⟩
    · intro t ht
      obtain ⟨e', he', hp, htgt⟩ := ih vis t ht
      exact ⟨e', List.mem_cons_of_mem _ he', hp, htgt⟩

lemma bfsExpand_fst_mono (es : List (String × String × Attrs))
    (vis : List String) : ∀ v ∈ vis, v ∈ (bfsExpand es vis).1 := by
  intro v hv
  rw [bfsExpand_fst]
  exact List.mem_append_left _ hv

/-- Every prerequisite target among the expanded edges lands in the visited
set. -/
lemma bfsExpand_target_mem (es : List (String × String × Attrs))
    (vis : List String) :
    ∀ e ∈ es, isPrereqE e = true → e.2.1 ∈ (bfsExpand es vis).1 := by
  induction es generalizing vis with
  | nil => simp
  | cons e0 es ih =>
    intro e he hp
    rcases List.mem_cons.mp he with rfl | hmem
    · rw [bfsExpand]
      split
      · exact bfsExpand_fst_mono es (vis ++ [e.2.1]) _
          (List.mem_append_right _ (by simp))
      · rename_i hcond
        simp only [Bool.and_eq_true, Bool.not_eq_true', not_and] at hcond
        have hct : vis.contains e.2.1 = true := by
          cases hcc : vis.contains e.2.1 with
          | true => rfl
          | false => exact absurd hcc (hcond hp)
        have hv : e.2.1 ∈ vis := List.mem_of_elem_eq_true hct
        exact bfsExpand_fst_mono es vis _ hv
    · rw [bfsExpand]
      split
      · exact ih (vis ++ [e0.2.1]) e hmem hp
      · exact ih vis e hmem hp

/-- `gapAux` only grows the visited set. -/
lemma gapAux_mono (g : DiGraph) :
    ∀ fuel queue vis l, gapAux g fuel queue vis = some l → ∀ v ∈ vis, v ∈ l := by
  intro fuel
  induction fuel with
  | zero =>
    intro queue vis l h
    cases queue with
    | nil => simp only [gapAux, Option.some_inj] at h; subst h; exact fun v hv => hv
    | cons cur rest => simp [gapAux] at h
  | succ f ih =>
    intro queue vis l h
    cases queue with
    | nil => simp only [gapAux, Option.some_inj] at h; subst h; exact fun v hv => hv
    | cons cur rest =>
      rw [gapAux] at h
      intro v hv
      exact ih _ _ _ h v (bfsExpand_fst_mono _ _ v hv)

/-- One step of the prerequisite-edge traversal relation actually followed by
the code: `b` is the target of a `prerequisite` out-edge of `a` (out-edges
resolved through nbunch, exactly as `get_all_prerequisites` sees them). -/
def prereqStep (g : DiGraph) (a b : String) : Prop :=
  ∃ e ∈ outEdges g a, isPrereqE e = true ∧ e.2.1 = b

/-- Everything the BFS visits is reachable from the start course by at least
one prerequisite step. -/
lemma gapAux_sound (g : DiGraph) (c : String) :
    ∀ fuel queue vis l, gapAux g fuel queue vis = some l →
      (∀ x ∈ queue, x = c ∨ Relation.TransGen (prereqStep g) c x) →
      (∀ v ∈ vis, Relation.TransGen (prereqStep g) c v) →
      ∀ v ∈ l, Relation.TransGen (prereqStep g) c v := by
  intro fuel
  induction fuel with
  | zero =>
    intro queue vis l h hq hv
    cases queue with
    | nil => simp only [gapAux, Option.some_inj] at h; subst h; exact hv
    | cons cur rest => simp [gapAux] at h
  | succ f ih =>
    intro queue vis l h hq hv
    cases queue with
    | nil => simp only [gapAux, Option.some_inj] at h; subst h; exact hv
    | cons cur rest =>
      rw [gapAux] at h
      have hnew : ∀ t ∈ (bfsExpand (outEdges g cur) vis).2,
          Relation.TransGen (prereqStep g) c t := by
        intro t ht
        obtain ⟨e, he, hp, htgt⟩ := bfsExpand_new_source _ _ t ht
        have hstep : prereqStep g cur t := ⟨e, he, hp, htgt⟩
        rcases hq cur (List.mem_cons_self ..) with rfl | htg
        · exact Relation.TransGen.single hstep
        · exact Relation.TransGen.tail htg hstep
      refine ih _ _ _ h ?_ ?_
      · intro x hx
        rcases List.mem_append.mp hx with hx | hx
        · exact hq x (List.mem_cons_of_mem _ hx)
        · exact Or.inr (hnew x hx)
      · intro v hvv
        rw [bfsExpand_fst] at hvv
        rcases List.mem_append.mp hvv with hvv | hvv
        · exact hv v hvv
        · exact hnew v hvv

/-- If no `prerequisite` edge of the graph points at `t`, nothing reaches
`t`. -/
lemma no_incoming_no_cycle (g : DiGraph) (t : String)
    (h : ∀ e ∈ g.edges, ¬(isPrereqE e = true ∧ e.2.1 = t)) (x : String) :
    ¬ Relation.TransGen (prereqStep g) x t := by
  intro htg
  rcases (Relation.TransGen.tail'_iff).mp htg with ⟨b, _, hstep⟩
  obtain ⟨e, he, hpre, htgt⟩ := hstep
  exact h e (outEdges_subset g b e he) ⟨hpre, htgt⟩

/-! ## C2 — does `all_prerequisites(c)` exclude `c` itself? -/

/-- C2 (as amended): the visited set starts *empty* (only the queue is
seeded with the course), so what holds is: whenever no prerequisite cycle
passes through `c` (no nonempty prerequisite-edge path from `c` back to
`c`), the returned collection does not contain `c`. -/
theorem c2_no_self_without_cycle (g : DiGraph) (c : String)
    (hacyc : ¬ Relation.TransGen (prereqStep g) c c) :
    c ∉ (getAllPrerequisites g c).map (fun n => n.1) := by
  intro hmem
  have hc : c ∈ allPrereqIds g c := by
    simp only [getAllPrerequisites, List.mem_map, List.mem_filterMap] at hmem
    obtain ⟨n, ⟨pid, hpid, hn⟩, hfst⟩ := hmem
    have : n.1 = pid := getNode_fst hn
    rw [this] at hfst
    rwa [hfst] at hpid
  rw [allPrereqIds] at hc
  cases hgap : gapAux g (bfsFuel g) [c] [] with
  | none => rw [hgap] at hc; simp at hc
  | some l =>
    rw [hgap] at hc
    simp only [Option.getD_some] at hc
    refine hacyc (gapAux_sound g c _ _ _ _ hgap ?_ ?_ c hc)
    · intro x hx
      rcases List.mem_singleton.mp hx with rfl
      exact Or.inl rfl
    · intro v hv
      simp at hv

/-- C2, the claim as stated is false: in `cycleGraph` a prerequisite cycle
passes through `c` (first conjunct), and `get_all_prerequisites("c")` then
returns `c` itself (second conjunct) — the visited set is not seeded with the
course. -/
theorem c2_counterexample_cycle_returns_self :
    Relation.TransGen (prereqStep cycleGraph) "c" "c"
  ∧ "c" ∈ (getAllPrerequisites cycleGraph "c").map (fun n => n.1) := by
  constructor
  · exact Relation.TransGen.head
      ⟨("c", "a", [("relation", .s "prerequisite")]), by decide, by decide, rfl⟩
      (Relation.TransGen.single
        ⟨("a", "c", [("relation", .s "prerequisite")]), by decide, by decide, rfl⟩)
  · decide

theorem c2_no_self_without_cycle_witness :
    "c" ∉ (getAllPrerequisites chainGraph "c").map (fun n => n.1) :=
  c2_no_self_without_cycle chainGraph "c"
    (no_incoming_no_cycle chainGraph "c" (by decide) "c")

/-! ## Termination of the breadth-first loop -/

/-- The targets of all `prerequisite` edges — everything the visited set can
ever contain. -/
def prereqTargets (g : DiGraph) : List String :=
  (g.edges.filter isPrereqE).map (fun e => e.2.1)

/-- How many potential visited ids are still unvisited. -/
def unvisCount (g : DiGraph) (vis : List String) : Nat :=
  ((prereqTargets g).toFinset \ vis.toFinset).card

/-- Adding `new` freshly visited ids (distinct, unvisited, all drawn from the
potential targets) decreases the unvisited count by exactly their number —
the strict-progress argument behind termination. -/
lemma unvisCount_drop (g : DiGraph) (vis new : List String)
    (hnodup : new.Nodup) (hmem : ∀ t ∈ new, t ∈ prereqTargets g)
    (hnot : ∀ t ∈ new, t ∉ vis) :
    unvisCount g (vis ++ new) + new.length ≤ unvisCount g vis := by
  classical
  rw [unvisCount, unvisCount, List.toFinset_append]
  have hsub : new.toFinset ⊆ (prereqTargets g).toFinset \ vis.toFinset := by
    intro t ht
    rw [List.mem_toFinset] at ht
    rw [Finset.mem_sdiff, List.mem_toFinset, List.mem_toFinset]
    exact ⟨hmem t ht, hnot t ht⟩
  have hcard : new.toFinset.card = new.length := List.toFinset_card_of_nodup hnodup
  have hdiff : (prereqTargets g).toFinset \ (vis.toFinset ∪ new.toFinset)
      = ((prereqTargets g).toFinset \ vis.toFinset) \ new.toFinset := by
    rw [sdiff_sdiff_left, Finset.sup_eq_union]
  rw [hdiff, Finset.card_sdiff hsub, hcard]
  have hle : new.length ≤ ((prereqTargets g).toFinset \ vis.toFinset).card := by
    rw [← hcard]
    exact Finset.card_le_card hsub
  omega

lemma unvisCount_le (g : DiGraph) (vis : List String) :
    unvisCount g vis ≤ g.edges.length := by
  classical
  calc unvisCount g vis ≤ (prereqTargets g).toFinset.card :=
        Finset.card_le_card (Finset.sdiff_subset)
    _ ≤ (prereqTargets g).length := List.toFinset_card_le _
    _ = (g.edges.filter isPrereqE).length := List.length_map _ _
    _ ≤ g.edges.length := List.length_filter_le _ _

/-- With fuel at least twice the unvisited potential plus the queue length,
the loop drains the queue: every pass pops one element and, for each of the
`k` freshly discovered ids, enqueues one id while decreasing the unvisited
potential by one, so the measure `2 * unvisited + |queue|` strictly
decreases. -/
lemma gapAux_isSome (g : DiGraph) :
    ∀ fuel queue vis, 2 * unvisCount g vis + queue.length ≤ fuel →
      (gapAux g fuel queue vis).isSome = true := by
  intro fuel
  induction fuel with
  | zero =>
    intro queue vis h
    cases queue with
    | nil => simp [gapAux]
    | cons cur rest => simp at h
  | succ f ih =>
    intro queue vis h
    cases queue with
    | nil => simp [gapAux]
    | cons cur rest =>
      rw [gapAux]
      set r := bfsExpand (outEdges g cur) vis with hr
      apply ih
      have hnodup := bfsExpand_new_nodup (outEdges g cur) vis
      have hnot := bfsExpand_new_not_mem (outEdges g cur) vis
      have hmem : ∀ t ∈ r.2, t ∈ prereqTargets g := by
        intro t ht
        obtain ⟨e, he, hp, htgt⟩ := bfsExpand_new_source (outEdges g cur) vis t ht
        rw [prereqTargets, List.mem_map]
        exact ⟨e, List.mem_filter.mpr ⟨outEdges_subset g cur e he, hp⟩, htgt⟩
      have hdrop := unvisCount_drop g vis r.2 hnodup hmem hnot
      have hfst : r.1 = vis ++ r.2 := bfsExpand_fst (outEdges g cur) vis
      rw [hfst, List.length_append]
      simp only [List.length_cons] at h
      omega

/-- The fuel `2 * |edges| + 1` used by `allPrereqIds` always suffices. -/
lemma bfs_total (g : DiGraph) (c : String) :
    ∃ l, gapAux g (bfsFuel g) [c] [] = some l := by
  have hcount : 2 * unvisCount g [] + 1 ≤ bfsFuel g := by
    have := unvisCount_le g []
    rw [bfsFuel]
    omega
  have := gapAux_isSome g (bfsFuel g) [c] [] (by simpa using hcount)
  exact Option.isSome_iff_exists.mp this

/-! ## C8 — the breadth-first traversal terminates -/

/-- C8: the loop of `get_all_prerequisites` halts within `2 * |edges| + 1`
passes, for *every* graph and every start id — cycles included — because the
visited set strictly grows inside the finite set of prerequisite-edge
targets (and a pass that discovers nothing shortens the queue). -/
theorem c8_bfs_terminates (g : DiGraph) (c : String) :
    ∃ l, gapAux g (bfsFuel g) [c] [] = some l :=
  bfs_total g c

/-! ## C7 — direct prerequisites are among the transitive ones -/

/-- C7: every id returned by `get_prerequisites(c)` also appears among the
ids returned by `get_all_prerequisites(c)`. -/
theorem c7_direct_subset_all (g : DiGraph) (c p : String)
    (hp : p ∈ (getPrerequisites g c).map (fun n => n.1)) :
    p ∈ (getAllPrerequisites g c).map (fun n => n.1) := by
  simp only [getPrerequisites, List.mem_map, List.mem_filterMap] at hp
  obtain ⟨n, ⟨e, he, hn⟩, hfst⟩ := hp
  have hpre : isPrereqE e = true := by
    cases hb : isPrereqE e with
    | true => rfl
    | false => rw [hb] at hn; simp at hn
  rw [hpre] at hn
  simp only [if_true] at hn
  have hid : n.1 = e.2.1 := getNode_fst hn
  have hpid : p = e.2.1 := by rw [← hfst, hid]
  obtain ⟨l, hl⟩ := bfs_total g c
  have hmem_l : e.2.1 ∈ l := by
    rw [bfsFuel, gapAux] at hl
    have hin : e.2.1 ∈ (bfsExpand (outEdges g c) []).1 :=
      bfsExpand_target_mem (outEdges g c) [] e he hpre
    exact gapAux_mono g _ _ _ _ hl _ hin
  have hids : p ∈ allPrereqIds g c := by
    rw [allPrereqIds, hl]
    simpa [hpid] using hmem_l
  simp only [getAllPrerequisites, List.mem_map, List.mem_filterMap]
  refine ⟨n, ⟨p, hids, ?_⟩, hfst⟩
  rw [hpid]
  exact hn

theorem c7_direct_subset_all_witness :
    "cs101" ∈ (getPrerequisites sampleGraph "cs201").map (fun n => n.1)
  ∧ "cs101" ∈ (getAllPrerequisites sampleGraph "cs201").map (fun n => n.1) :=
  ⟨by decide, c7_direct_subset_all sampleGraph "cs201" "cs101" (by decide)⟩

/-! ## Graph-construction invariants (towards C10) -/

/-- "At most one edge per ordered pair of nodes". -/
def edgeKeysNodup (g : DiGraph) : Prop :=
  (g.edges.map (fun e => (e.1, e.2.1))).Nodup

/-- The relation tag currently stored on the `(u, v)` edge (outer `none` when
there is no such edge). -/
def edgeRel (g : DiGraph) (u v : String) : Option (Option Val) :=
  (g.edges.find? (fun e => e.1 == u && e.2.1 == v)).map
    (fun e => dget e.2.2 "relation")

lemma addNode_edges (g : DiGraph) (n : String) (a : Attrs) :
    (addNode g n a).edges = g.edges := rfl

lemma addEdge_edges (g : DiGraph) (u v : String) (a : Attrs) :
    (addEdge g u v a).edges = setEdgeAttrs g.edges u v a := rfl

lemma dget_dset_self (d : Attrs) (k : String) (v : Val) :
    dget (dset d k v) k = some v := by
  induction d with
  | nil => simp [dset, dget]
  | cons kv d ih =>
    obtain ⟨k', v'⟩ := kv
    rw [dset]
    split
    · simp [dget]
    · rename_i hne
      rw [dget, List.find?]
      simp only [hne]
      exact ih

lemma dget_dupdate_rel (a0 : Attrs) (r : Val) :
    dget (dupdate a0 [("relation", r)]) "relation" = some r :=
  dget_dset_self a0 "relation" r

lemma setEdgeAttrs_find_rel (u v : String) (r : Val) :
    ∀ es : List (String × String × Attrs),
      ((setEdgeAttrs es u v [("relation", r)]).find?
        (fun e => e.1 == u && e.2.1 == v)).map (fun e => dget e.2.2 "relation")
      = some (some r) := by
  intro es
  induction es with
  | nil => simp [setEdgeAttrs, List.find?, dget]
  | cons e es ih =>
    obtain ⟨x, y, a0⟩ := e
    rw [setEdgeAttrs]
    split
    · rename_i hxy
      rw [List.find?_cons_of_pos _ (by simpa using hxy)]
      simp [dget_dupdate_rel]
    · rename_i hxy
      rw [List.find?_cons_of_neg _ (by simpa using hxy)]
      exact ih

lemma setEdgeAttrs_find_other (u v x y : String) (a : Attrs)
    (hne : ¬(x = u ∧ y = v)) :
    ∀ es : List (String × String × Attrs),
      (setEdgeAttrs es x y a).find? (fun e => e.1 == u && e.2.1 == v)
      = es.find? (fun e => e.1 == u && e.2.1 == v) := by
  have hkey : ((x == u && y == v) = false) := by
    rw [Bool.and_eq_false_iff]
    by_cases hx : x = u
    · exact Or.inr (beq_eq_false_iff_ne.mpr (fun hy => hne ⟨hx, hy⟩))
    · exact Or.inl (beq_eq_false_iff_ne.mpr hx)
  intro es
  induction es with
  | nil =>
    show List.find? _ [(x, y, a)] = _
    simp [List.find?, hkey]
  | cons e es ih =>
    obtain ⟨p, q, b⟩ := e
    rw [setEdgeAttrs]
    split
    · rename_i hpq
      simp only [Bool.and_eq_true, beq_iff_eq] at hpq
      obtain ⟨rfl, rfl⟩ := hpq
      simp [List.find?, hkey]
    · by_cases hh : (p == u && q == v) = true
      · simp [List.find?, hh]
      · simp [List.find?, hh, ih]

lemma edgeRel_addEdge_self (g : DiGraph) (u v : String) (r : Val) :
    edgeRel (addEdge g u v [("relation", r)]) u v = some (some r) := by
  rw [edgeRel, addEdge_edges]
  exact setEdgeAttrs_find_rel u v r g.edges

lemma edgeRel_addEdge_other (g : DiGraph) (x y u v : String) (a : Attrs)
    (hne : ¬(x = u ∧ y = v)) :
    edgeRel (addEdge g x y a) u v = edgeRel g u v := by
  rw [edgeRel, edgeRel, addEdge_edges, setEdgeAttrs_find_other u v x y a hne]

lemma edgeRel_addNode (g : DiGraph) (n : String) (a : Attrs) (u v : String) :
    edgeRel (addNode g n a) u v = edgeRel g u v := rfl

lemma setEdgeAttrs_keys_sub (u v : String) (a : Attrs) :
    ∀ (es : List (String × String × Attrs)) p,
      p ∈ (setEdgeAttrs es u v a).map (fun e => (e.1, e.2.1)) →
      p ∈ es.map (fun e => (e.1, e.2.1)) ∨ p = (u, v) := by
  intro es
  induction es with
  | nil =>
    intro p hp
    simp only [setEdgeAttrs, List.map_cons, List.map_nil, List.mem_singleton] at hp
    exact Or.inr hp
  | cons e es ih =>
    obtain ⟨x, y, b⟩ := e
    intro p hp
    rw [setEdgeAttrs] at hp
    split at hp
    · simp only [List.map_cons, List.mem_cons] at hp ⊢
      rcases hp with hp | hp
      · exact Or.inl (Or.inl hp)
      · exact Or.inl (Or.inr hp)
    · simp only [List.map_cons, List.mem_cons] at hp ⊢
      rcases hp with hp | hp
      · exact Or.inl (Or.inl hp)
      · rcases ih p hp with h | h
        · exact Or.inl (Or.inr h)
        · exact Or.inr h

lemma setEdgeAttrs_keys_nodup (u v : String) (a : Attrs) :
    ∀ es : List (String × String × Attrs),
      (es.map (fun e => (e.1, e.2.1))).Nodup →
      ((setEdgeAttrs es u v a).map (fun e => (e.1, e.2.1))).Nodup := by
  intro es
  induction es with
  | nil => intro _; simp [setEdgeAttrs]
  | cons e es ih =>
    obtain ⟨x, y, b⟩ := e
    intro hnodup
    rw [List.map_cons, List.nodup_cons] at hnodup
    rw [setEdgeAttrs]
    split
    · rw [List.map_cons, List.nodup_cons]
      exact hnodup
    · rename_i hxy
      rw [List.map_cons, List.nodup_cons]
      refine ⟨?_, ih hnodup.2⟩
      intro habs
      rcases setEdgeAttrs_keys_sub u v a es (x, y) habs with h | h
      · exact hnodup.1 h
      · have hne2 : ¬(x = u ∧ y = v) := by
          intro ⟨h1, h2⟩
          subst h1; subst h2
          simp at hxy
        have hp := Prod.ext_iff.mp h
        exact hne2 hp

lemma edgeKeysNodup_addEdge (g : DiGraph) (u v : String) (a : Attrs)
    (h : edgeKeysNodup g) : edgeKeysNodup (addEdge g u v a) := by
  rw [edgeKeysNodup, addEdge_edges]
  exact setEdgeAttrs_keys_nodup u v a g.edges h

lemma edgeKeysNodup_addNode (g : DiGraph) (n : String) (a : Attrs)
    (h : edgeKeysNodup g) : edgeKeysNodup (addNode g n a) := h

lemma any_setNodeAttrs_self (n : String) (a : Attrs) :
    ∀ ns : List (String × Attrs),
      (setNodeAttrs ns n a).any (fun x => x.1 == n) = true := by
  intro ns
  induction ns with
  | nil => simp [setNodeAttrs]
  | cons x ns ih =>
    obtain ⟨i, a0⟩ := x
    rw [setNodeAttrs]
    split
    · rename_i hin
      simp only [List.any_cons]
      rw [hin]
      simp
    · simp only [List.any_cons, ih, Bool.or_true]

lemma any_setNodeAttrs_mono (n m : String) (a : Attrs) :
    ∀ ns : List (String × Attrs),
      ns.any (fun x => x.1 == m) = true →
      (setNodeAttrs ns n a).any (fun x => x.1 == m) = true := by
  intro ns
  induction ns with
  | nil => simp
  | cons x ns ih =>
    obtain ⟨i, a0⟩ := x
    intro h
    rw [List.any_cons] at h
    rw [setNodeAttrs]
    split
    · rw [List.any_cons]
      rcases Bool.or_eq_true_iff.mp h with h' | h'
      · exact Bool.or_eq_true_iff.mpr (Or.inl h')
      · exact Bool.or_eq_true_iff.mpr (Or.inr h')
    · rw [List.any_cons]
      rcases Bool.or_eq_true_iff.mp h with h' | h'
      · exact Bool.or_eq_true_iff.mpr (Or.inl h')
      · exact Bool.or_eq_true_iff.mpr (Or.inr (ih h'))

lemma hasNode_addNode_self (g : DiGraph) (n : String) (a : Attrs) :
    (addNode g n a).hasNode n = true :=
  any_setNodeAttrs_self n a g.nodes

lemma hasNode_addNode_mono (g : DiGraph) (n m : String) (a : Attrs)
    (h : g.hasNode m = true) : (addNode g n a).hasNode m = true :=
  any_setNodeAttrs_mono n m a g.nodes h

lemma hasNode_addEdge_fst (g : DiGraph) (u v : String) (a : Attrs) :
    (addEdge g u v a).hasNode u = true :=
  hasNode_addNode_mono _ v u [] (hasNode_addNode_self g u [])

lemma hasNode_addEdge_mono (g : DiGraph) (u v m : String) (a : Attrs)
    (h : g.hasNode m = true) : (addEdge g u v a).hasNode m = true :=
  hasNode_addNode_mono _ v m [] (hasNode_addNode_mono g u m [] h)

lemma find?_eq_self_of_nodup :
    ∀ es : List (String × String × Attrs),
      (es.map (fun e => (e.1, e.2.1))).Nodup →
      ∀ e ∈ es, es.find? (fun x => x.1 == e.1 && x.2.1 == e.2.1) = some e := by
  intro es
  induction es with
  | nil => simp
  | cons h t ih =>
    intro hnodup e he
    rw [List.map_cons, List.nodup_cons] at hnodup
    rcases List.mem_cons.mp he with heq | hmem
    · subst heq
      exact List.find?_cons_of_pos _ (by simp)
    · have hkey : ((h.1 == e.1 && h.2.1 == e.2.1) = false) := by
        cases hb : (h.1 == e.1 && h.2.1 == e.2.1) with
        | false => rfl
        | true =>
          exfalso
          simp only [Bool.and_eq_true, beq_iff_eq] at hb
          refine hnodup.1 ?_
          rw [List.mem_map]
          exact ⟨e, hmem, by rw [hb.1, hb.2]⟩
      rw [List.find?_cons_of_neg _ (by simp [hkey])]
      exact ih hnodup.2 e hmem

lemma edgeRel_of_mem (g : DiGraph) (hnodup : edgeKeysNodup g)
    (e : String × String × Attrs) (he : e ∈ g.edges) :
    edgeRel g e.1 e.2.1 = some (dget e.2.2 "relation") := by
  rw [edgeRel, find?_eq_self_of_nodup g.edges hnodup e he]
  rfl

lemma foldl_preserves {α β : Type _} (P : β → Prop) (f : β → α → β) :
    ∀ (l : List α) (b : β), (∀ b' a, a ∈ l → P b' → P (f b' a)) → P b →
      P (l.foldl f b) := by
  intro l
  induction l with
  | nil => intro b _ hb; exact hb
  | cons a l ih =>
    intro b hstep hb
    exact ih (f b a) (fun b' x hx => hstep b' x (List.mem_cons_of_mem _ hx))
      (hstep b a (List.mem_cons_self ..) hb)

/-! ### The fate of the `(head, department)` edge through the build passes -/

/-- All out-edges of `f` point at `did`. -/
def relPointsTo (f did : String) (g : DiGraph) : Prop :=
  ∀ v r, edgeRel g f v = some r → v = did

/-- All out-edges of `f` point at `did` or already carry `heads`. -/
def relHeadsOr (f did : String) (g : DiGraph) : Prop :=
  ∀ v r, edgeRel g f v = some r → (v = did ∨ r = some (.s "heads"))

/-- All out-edges of `f` carry `heads`. -/
def relAllHeads (f : String) (g : DiGraph) : Prop :=
  ∀ v r, edgeRel g f v = some r → r = some (.s "heads")

/-- No out-edge of `f` carries `belongs_to`. -/
def noBelongsRel (f : String) (g : DiGraph) : Prop :=
  ∀ v r, edgeRel g f v = some r → r ≠ some (.s "belongs_to")

lemma addDeptNodes_edges (l : List DeptRec) :
    ∀ g, (addDeptNodes g l).edges = g.edges := by
  induction l with
  | nil => intro g; rfl
  | cons d l ih => intro g; exact ih _

lemma facultyPhase_rel (f did : String) :
    ∀ (l : List FacultyRec) (g : DiGraph),
      (∀ fr ∈ l, fr.id = f → fr.department = did) →
      relPointsTo f did g → relPointsTo f did (addFacultyNodes g l) := by
  intro l
  induction l with
  | nil => intro g _ hg; exact hg
  | cons fr l ih =>
    intro g hl hg
    rw [addFacultyNodes, List.foldl_cons]
    apply ih
    · exact fun fr' h' => hl fr' (List.mem_cons_of_mem _ h')
    · intro v r hrel
      by_cases hc : fr.id = f ∧ fr.department = v
      · rw [← hc.2]
        exact hl fr (List.mem_cons_self ..) hc.1
      · rw [edgeRel_addEdge_other _ _ _ _ _ _ hc, edgeRel_addNode] at hrel
        exact hg v r hrel

lemma headsPhase_pre (f did : String) :
    ∀ (l : List DeptRec) (g : DiGraph),
      relHeadsOr f did g → relHeadsOr f did (addHeadEdges g l) := by
  intro l
  induction l with
  | nil => intro g hg; exact hg
  | cons d l ih =>
    intro g hg
    rw [addHeadEdges, List.foldl_cons]
    apply ih
    intro v r hrel
    cases hh : d.facultyHead with
    | none => rw [hh] at hrel; exact hg v r hrel
    | some h =>
      rw [hh] at hrel
      by_cases hc : h = f ∧ d.id = v
      · obtain ⟨rfl, rfl⟩ := hc
        rw [edgeRel_addEdge_self] at hrel
        exact Or.inr (Option.some.inj hrel).symm
      · rw [edgeRel_addEdge_other _ _ _ _ _ _ hc] at hrel
        exact hg v r hrel

lemma headsPhase_post (f : String) :
    ∀ (l : List DeptRec) (g : DiGraph),
      relAllHeads f g → relAllHeads f (addHeadEdges g l) := by
  intro l
  induction l with
  | nil => intro g hg; exact hg
  | cons d l ih =>
    intro g hg
    rw [addHeadEdges, List.foldl_cons]
    apply ih
    intro v r hrel
    cases hh : d.facultyHead with
    | none => rw [hh] at hrel; exact hg v r hrel
    | some h =>
      rw [hh] at hrel
      by_cases hc : h = f ∧ d.id = v
      · obtain ⟨rfl, rfl⟩ := hc
        rw [edgeRel_addEdge_self] at hrel
        exact (Option.some.inj hrel).symm
      · rw [edgeRel_addEdge_other _ _ _ _ _ _ hc] at hrel
        exact hg v r hrel

lemma coursesPhase_noBelongs (f : String) :
    ∀ (l : List CourseRec) (g : DiGraph),
      (∀ cr ∈ l, cr.id ≠ f) →
      noBelongsRel f g → noBelongsRel f (addCourseNodes g l) := by
  intro l
  induction l with
  | nil => intro g _ hg; exact hg
  | cons cr l ih =>
    intro g hl hg
    rw [addCourseNodes, List.foldl_cons]
    apply ih
    · exact fun cr' h' => hl cr' (List.mem_cons_of_mem _ h')
    · have h1 : noBelongsRel f (addNode g cr.id
          [("type", .s "course"), ("code", .s cr.code), ("name", .s cr.name),
           ("credits", .n cr.credits), ("level", .s cr.level),
           ("description", .s (cr.description.getD ""))]) := by
        intro v r hr
        rw [edgeRel_addNode] at hr
        exact hg v r hr
      have h2 : noBelongsRel f (addEdge (addNode g cr.id
          [("type", .s "course"), ("code", .s cr.code), ("name", .s cr.name),
           ("credits", .n cr.credits), ("level", .s cr.level),
           ("description", .s (cr.description.getD ""))])
          cr.id cr.department [("relation", .s "belongs_to")]) := by
        intro v r hr
        by_cases hc : cr.id = f ∧ cr.department = v
        · exact absurd hc.1 (hl cr (List.mem_cons_self ..))
        · rw [edgeRel_addEdge_other _ _ _ _ _ _ hc] at hr
          exact h1 v r hr
      have h3 := foldl_preserves (noBelongsRel f)
        (fun gi instr => addEdge gi instr cr.id [("relation", .s "teaches")])
        (cr.taughtBy.getD []) _ ?_ h2
      · exact h3
      · intro g' instr _ hP v r hr
        by_cases hc : instr = f ∧ cr.id = v
        · obtain ⟨rfl, rfl⟩ := hc
          rw [edgeRel_addEdge_self] at hr
          rw [← Option.some.inj hr]
          intro habs
          exact absurd (Option.some.inj habs) (by decide)
        · rw [edgeRel_addEdge_other _ _ _ _ _ _ hc] at hr
          exact hP v r hr

lemma prereqPhase_noBelongs (f : String) :
    ∀ (l : List PrereqRec) (g : DiGraph),
      noBelongsRel f g → noBelongsRel f (addPrereqEdges g l) := by
  intro l
  induction l with
  | nil => intro g hg; exact hg
  | cons p l ih =>
    intro g hg
    rw [addPrereqEdges, List.foldl_cons]
    apply ih
    intro v r hr
    by_cases hc : p.course = f ∧ p.requires = v
    · obtain ⟨rfl, rfl⟩ := hc
      rw [edgeRel_addEdge_self] at hr
      rw [← Option.some.inj hr]
      intro habs
      exact absurd (Option.some.inj habs) (by decide)
    · rw [edgeRel_addEdge_other _ _ _ _ _ _ hc] at hr
      exact hg v r hr

/-! ### Key uniqueness and node membership through the build passes -/

lemma addDeptNodes_nodup (l : List DeptRec) (g : DiGraph)
    (h : edgeKeysNodup g) : edgeKeysNodup (addDeptNodes g l) :=
  foldl_preserves edgeKeysNodup _ l g
    (fun g' d _ hP => edgeKeysNodup_addNode g' d.id _ hP) h

lemma addFacultyNodes_nodup (l : List FacultyRec) (g : DiGraph)
    (h : edgeKeysNodup g) : edgeKeysNodup (addFacultyNodes g l) :=
  foldl_preserves edgeKeysNodup _ l g
    (fun g' fr _ hP =>
      edgeKeysNodup_addEdge _ fr.id fr.department _
        (edgeKeysNodup_addNode g' fr.id _ hP)) h

lemma addHeadEdges_nodup (l : List DeptRec) (g : DiGraph)
    (h : edgeKeysNodup g) : edgeKeysNodup (addHeadEdges g l) := by
  refine foldl_preserves edgeKeysNodup _ l g ?_ h
  intro g' d _ hP
  cases hh : d.facultyHead with
  | none => simpa [hh] using hP
  | some hd => simpa [hh] using edgeKeysNodup_addEdge g' hd d.id _ hP

lemma addCourseNodes_nodup (l : List CourseRec) (g : DiGraph)
    (h : edgeKeysNodup g) : edgeKeysNodup (addCourseNodes g l) := by
  refine foldl_preserves edgeKeysNodup _ l g ?_ h
  intro g' cr _ hP
  refine foldl_preserves edgeKeysNodup _ (cr.taughtBy.getD []) _ ?_ ?_
  · intro g'' instr _ hP'
    exact edgeKeysNodup_addEdge g'' instr cr.id _ hP'
  · exact edgeKeysNodup_addEdge _ cr.id cr.department _
      (edgeKeysNodup_addNode g' cr.id _ hP)

lemma addPrereqEdges_nodup (l : List PrereqRec) (g : DiGraph)
    (h : edgeKeysNodup g) : edgeKeysNodup (addPrereqEdges g l) :=
  foldl_preserves edgeKeysNodup _ l g
    (fun g' p _ hP => edgeKeysNodup_addEdge g' p.course p.requires _ hP) h

lemma addHeadEdges_hasNode (l : List DeptRec) (g : DiGraph) (m : String)
    (h : g.hasNode m = true) : (addHeadEdges g l).hasNode m = true := by
  refine foldl_preserves (fun g' : DiGraph => g'.hasNode m = true) _ l g ?_ h
  intro g' d _ hP
  cases hh : d.facultyHead with
  | none => simpa [hh] using hP
  | some hd => simpa [hh] using hasNode_addEdge_mono g' hd d.id m _ hP

lemma addCourseNodes_hasNode (l : List CourseRec) (g : DiGraph) (m : String)
    (h : g.hasNode m = true) : (addCourseNodes g l).hasNode m = true := by
  refine foldl_preserves (fun g' : DiGraph => g'.hasNode m = true) _ l g ?_ h
  intro g' cr _ hP
  refine foldl_preserves (fun g'' : DiGraph => g''.hasNode m = true) _
    (cr.taughtBy.getD []) _ ?_ ?_
  · intro g'' instr _ hP'
    exact hasNode_addEdge_mono g'' instr cr.id m _ hP'
  · exact hasNode_addEdge_mono _ cr.id cr.department m _
      (hasNode_addNode_mono g' cr.id m _ hP)

lemma addPrereqEdges_hasNode (l : List PrereqRec) (g : DiGraph) (m : String)
    (h : g.hasNode m = true) : (addPrereqEdges g l).hasNode m = true :=
  foldl_preserves (fun g' : DiGraph => g'.hasNode m = true) _ l g
    (fun g' p _ hP => hasNode_addEdge_mono g' p.course p.requires m _ hP) h

/-! ## C10 — one edge per ordered pair; `heads` replaces `belongs_to` -/

/-- C10: the graph keeps at most one edge per ordered pair of node ids, with
the last `relation` assignment winning (`setEdgeAttrs`/`dupdate`).  Hence
when a department `d` declares `faculty_head = f` and `f`'s own faculty
record names `d` as department (and no course reuses the id `f`), the
`heads` edge written by the later pass replaces `f`'s `belongs_to` edge: in
the built graph `get_faculty_department(f)` is absent and
`get_faculty_by_department(d)` omits `f`. -/
theorem c10_heads_overwrites_belongs (doc : Document) (d : DeptRec) (f : String)
    (hd : d ∈ doc.departments) (hhead : d.facultyHead = some f)
    (hf : ∀ fr ∈ doc.faculty, fr.id = f → fr.department = d.id)
    (hcourse : ∀ cr ∈ doc.courses, cr.id ≠ f) :
    edgeKeysNodup (buildGraph doc)
  ∧ getFacultyDepartment (buildGraph doc) f = none
  ∧ f ∉ (getFacultyByDepartment (buildGraph doc) d.id).map (fun n => n.1) := by
  classical
  obtain ⟨l1, l2, hsplit⟩ := List.append_of_mem hd
  set gD := addDeptNodes emptyGraph doc.departments with hgD
  set gF := addFacultyNodes gD doc.faculty with hgF
  have hQ0 : relPointsTo f d.id gD := by
    intro v r hrel
    rw [edgeRel] at hrel
    rw [hgD, addDeptNodes_edges] at hrel
    simp [emptyGraph] at hrel
  have hQF : relPointsTo f d.id gF := facultyPhase_rel f d.id doc.faculty gD hf hQ0
  have hsplitHeads : addHeadEdges gF doc.departments
      = addHeadEdges (addEdge (addHeadEdges gF l1) f d.id
          [("relation", Val.s "heads")]) l2 := by
    rw [hsplit, addHeadEdges, List.foldl_append, List.foldl_cons]
    simp only [hhead]
    rfl
  set gMid := addEdge (addHeadEdges gF l1) f d.id [("relation", Val.s "heads")]
    with hgMid
  have hV1 : relHeadsOr f d.id (addHeadEdges gF l1) :=
    headsPhase_pre f d.id l1 gF (fun v r hrel => Or.inl (hQF v r hrel))
  have hHd : relAllHeads f gMid := by
    intro v r hrel
    rw [hgMid] at hrel
    by_cases hv : d.id = v
    · subst hv
      rw [edgeRel_addEdge_self] at hrel
      exact (Option.some.inj hrel).symm
    · rw [edgeRel_addEdge_other _ _ _ _ _ _ (fun hc => hv hc.2)] at hrel
      rcases hV1 v r hrel with h | h
      · exact absurd h.symm hv
      · exact h
  have hHall : relAllHeads f (addHeadEdges gF doc.departments) := by
    rw [hsplitHeads]
    exact headsPhase_post f l2 gMid hHd
  have hNB : noBelongsRel f (addHeadEdges gF doc.departments) := by
    intro v r hrel
    rw [hHall v r hrel]
    intro habs
    exact absurd (Option.some.inj habs) (by decide)
  have hNBC : noBelongsRel f (addCourseNodes (addHeadEdges gF doc.departments)
      doc.courses) :=
    coursesPhase_noBelongs f doc.courses _ hcourse hNB
  have hNBG : noBelongsRel f (buildGraph doc) := by
    rw [buildGraph]
    exact prereqPhase_noBelongs f doc.prerequisites _ hNBC
  have hNodup : edgeKeysNodup (buildGraph doc) := by
    rw [buildGraph]
    apply addPrereqEdges_nodup
    apply addCourseNodes_nodup
    apply addHeadEdges_nodup
    apply addFacultyNodes_nodup
    apply addDeptNodes_nodup
    simp [edgeKeysNodup, emptyGraph]
  have hNodeF : (buildGraph doc).hasNode f = true := by
    rw [buildGraph]
    apply addPrereqEdges_hasNode
    apply addCourseNodes_hasNode
    show (addHeadEdges gF doc.departments).hasNode f = true
    rw [hsplitHeads]
    exact addHeadEdges_hasNode l2 gMid f (hasNode_addEdge_fst _ f d.id _)
  refine ⟨hNodup, ?_, ?_⟩
  · rw [getFacultyDepartment]
    have hfind : (outEdges (buildGraph doc) f).find? isBelongsE = none := by
      rw [List.find?_eq_none]
      intro e he
      have hee : e ∈ (buildGraph doc).edges := outEdges_subset _ f e he
      have hef : e.1 = f := by
        rw [outEdges, nbunch, if_pos hNodeF] at he
        simp only [List.flatMap_cons, List.flatMap_nil, List.append_nil] at he
        simpa using (List.mem_filter.mp he).2
      have hrel := edgeRel_of_mem (buildGraph doc) hNodup e hee
      rw [hef] at hrel
      have hnb := hNBG e.2.1 _ hrel
      intro habs
      rw [isBelongsE] at habs
      exact hnb (eq_of_beq habs)
    rw [hfind]
    rfl
  · intro hmem
    simp only [getFacultyByDepartment, List.mem_map, List.mem_filterMap] at hmem
    obtain ⟨n, ⟨e, he, hfn⟩, hfst⟩ := hmem
    by_cases hb : isBelongsE e = true
    · rw [if_pos hb] at hfn
      cases hgn : getNode (buildGraph doc) e.1 with
      | none =>
        rw [hgn] at hfn
        exact Option.noConfusion hfn
      | some nrec =>
        rw [hgn] at hfn
        have hfn' : (if (dget nrec.2 "type" == some (Val.s "faculty")) = true
            then some nrec else none) = some n := hfn
        have hn_eq : n = nrec := by
          by_cases ht : (dget nrec.2 "type" == some (Val.s "faculty")) = true
          · rw [if_pos ht] at hfn'
            exact (Option.some.inj hfn').symm
          · rw [if_neg ht] at hfn'
            exact Option.noConfusion hfn'
        have hef : e.1 = f := by
          rw [← getNode_fst hgn, ← hn_eq, hfst]
        have hee : e ∈ (buildGraph doc).edges := inEdges_subset _ d.id e he
        have hrel := edgeRel_of_mem _ hNodup e hee
        rw [hef] at hrel
        have hnb := hNBG e.2.1 _ hrel
        rw [isBelongsE] at hb
        exact hnb (eq_of_beq hb)
    · rw [if_neg hb] at hfn
      cases hfn

theorem c10_heads_overwrites_belongs_witness :
    edgeKeysNodup (buildGraph sampleDoc)
  ∧ getFacultyDepartment (buildGraph sampleDoc) "f1" = none
  ∧ "f1" ∉ (getFacultyByDepartment (buildGraph sampleDoc) "cs").map (fun n => n.1) :=
  c10_heads_overwrites_belongs sampleDoc
    { id := "cs", name := "Computer Science", code := "CS",
      facultyHead := some "f1" }
    "f1" (by decide) rfl (by decide) (by decide)

/-! ## Matcher lemmas (towards C4 and C6) -/

lemma litM_ok (lit : List Char) : ∀ (rest : List Char) (gs : Groups) (k : MCont),
    litM lit (lit ++ rest) gs k = k rest gs := by
  induction lit with
  | nil => intro rest gs k; rfl
  | cons c l ih => intro rest gs k; simp [litM, ih]

lemma litM_none (lit : List Char) : ∀ (cs : List Char) (gs : Groups) (k : MCont),
    startsWithL lit cs = false → litM lit cs gs k = none := by
  induction lit with
  | nil => intro cs gs k h; simp [startsWithL] at h
  | cons c l ih =>
    intro cs gs k h
    cases cs with
    | nil => rfl
    | cons x cs' =>
      show (if x = c then litM l cs' gs k else none) = none
      rw [startsWithL, Bool.and_eq_false_iff] at h
      by_cases hx : x = c
      · subst hx
        rcases h with h | h
        · simp at h
        · rw [if_pos rfl]
          exact ih cs' gs k h
      · rw [if_neg hx]

lemma startsWithL_decomp (lit : List Char) : ∀ cs : List Char,
    startsWithL lit cs = true → cs = lit ++ cs.drop lit.length := by
  induction lit with
  | nil => intro cs _; simp
  | cons c l ih =>
    intro cs h
    cases cs with
    | nil => simp [startsWithL] at h
    | cons x cs' =>
      rw [startsWithL, Bool.and_eq_true] at h
      have hx : c = x := by simpa using h.1
      subst hx
      have := ih cs' h.2
      rw [List.length_cons, List.cons_append, List.drop_succ_cons]
      exact congrArg (c :: ·) this

/-- A mismatch strictly inside the overlap of `lit` and `cs`: then no
extension of `cs` can start with `lit`. -/
def mismatchWithin (lit cs : List Char) : Bool :=
  match lit, cs with
  | [], _ => false
  | _ :: _, [] => false
  | a :: l', c :: cs' => a != c || mismatchWithin l' cs'

lemma mismatchWithin_startsWith (lit : List Char) : ∀ (cs ys : List Char),
    mismatchWithin lit cs = true → startsWithL lit (cs ++ ys) = false := by
  induction lit with
  | nil => intro cs ys h; simp [mismatchWithin] at h
  | cons a l ih =>
    intro cs ys h
    cases cs with
    | nil => simp [mismatchWithin] at h
    | cons c cs' =>
      rw [mismatchWithin, Bool.or_eq_true] at h
      rw [List.cons_append, startsWithL]
      rcases h with h | h
      · rw [bne_iff_ne] at h
        rw [Bool.and_eq_false_iff]
        exact Or.inl (beq_eq_false_iff_ne.mpr h)
      · rw [Bool.and_eq_false_iff]
        exact Or.inr (ih cs' ys h)

/-- Every nonempty suffix of `l` has a mismatch with `lit` inside the
overlap. -/
def allSuffixMismatch (lit : List Char) : List Char → Bool
  | [] => true
  | c :: cs => mismatchWithin lit (c :: cs) && allSuffixMismatch lit cs

lemma allSuffixMismatch_startsWith (lit : List Char) :
    ∀ L : List Char, allSuffixMismatch lit L = true →
      ∀ i < L.length, ∀ ys, startsWithL lit (L.drop i ++ ys) = false := by
  intro L
  induction L with
  | nil => intro _ i hi; simp at hi
  | cons c L' ih =>
    intro h i hi ys
    rw [allSuffixMismatch, Bool.and_eq_true] at h
    cases i with
    | zero => exact mismatchWithin_startsWith lit (c :: L') ys h.1
    | succ j =>
      rw [List.drop_succ_cons]
      exact ih h.2 j (by simpa using hi) ys

lemma searchM_skip (m : List Char → Option Groups) :
    ∀ (L ys : List Char), (∀ i < L.length, m (L.drop i ++ ys) = none) →
      searchM m (L ++ ys) = searchM m ys := by
  intro L
  induction L with
  | nil => intro ys _; rfl
  | cons c L' ih =>
    intro ys h
    rw [List.cons_append, searchM]
    have h0 : m (c :: (L' ++ ys)) = none := by
      have := h 0 (by simp)
      simpa using this
    rw [h0]
    simp only [Option.orElse]
    exact ih ys (fun i hi => by
      have := h (i + 1) (by simpa using Nat.succ_lt_succ hi)
      simpa using this)

lemma searchM_word_none (m : List Char → Option Groups)
    (hm : ∀ t : List Char, (∀ c ∈ t, isWordCh c = true) → m t = none) :
    ∀ cs : List Char, (∀ c ∈ cs, isWordCh c = true) → searchM m cs = none := by
  intro cs
  induction cs with
  | nil => intro _; exact hm [] (by simp)
  | cons c cs' ih =>
    intro h
    rw [searchM, hm _ h]
    simp only [Option.orElse]
    exact ih (fun x hx => h x (List.mem_cons_of_mem _ hx))

/-! ### Character-class facts -/

lemma wordCh_toNat_le {c : Char} (h : isWordCh c = true) : c.toNat ≤ 122 := by
  rw [isWordCh, Bool.or_eq_true] at h
  rcases h with h | h
  · rw [Char.isAlphanum, Bool.or_eq_true] at h
    rcases h with h | h
    · rw [Char.isAlpha, Bool.or_eq_true] at h
      rcases h with h | h
      · rw [Char.isUpper, Bool.and_eq_true] at h
        have h2 : c.val.toNat ≤ (90 : UInt32).toNat := of_decide_eq_true h.2
        have e : (90 : UInt32).toNat = 90 := by decide
        rw [e] at h2
        show c.val.toNat ≤ 122
        omega
      · rw [Char.isLower, Bool.and_eq_true] at h
        have h2 : c.val.toNat ≤ (122 : UInt32).toNat := of_decide_eq_true h.2
        have e : (122 : UInt32).toNat = 122 := by decide
        rw [e] at h2
        exact h2
    · rw [Char.isDigit, Bool.and_eq_true] at h
      have h2 : c.val.toNat ≤ (57 : UInt32).toNat := of_decide_eq_true h.2
      have e : (57 : UInt32).toNat = 57 := by decide
      rw [e] at h2
      show c.val.toNat ≤ 122
      omega
  · have hc : c = '_' := eq_of_beq h
    subst hc
    decide

lemma isWordCh_toLower {c : Char} (h : isWordCh c = true) :
    isWordCh c.toLower = true := by
  have hle := wordCh_toNat_le h
  rw [← Char.ofNat_toNat c] at h ⊢
  generalize c.toNat = n at h hle ⊢
  interval_cases n <;> revert h <;> decide

lemma isDigit_toLower {c : Char} (h : c.isDigit = true) : c.toLower = c := by
  rw [Char.isDigit, Bool.and_eq_true] at h
  have h1 : (48 : UInt32).toNat ≤ c.val.toNat := of_decide_eq_true h.1
  have h2 : c.val.toNat ≤ (57 : UInt32).toNat := of_decide_eq_true h.2
  have e1 : (48 : UInt32).toNat = 48 := by decide
  have e2 : (57 : UInt32).toNat = 57 := by decide
  rw [e1] at h1
  rw [e2] at h2
  rw [Char.toLower]
  have hno : ¬(c.toNat ≥ 65 ∧ c.toNat ≤ 90) := by
    show ¬(c.val.toNat ≥ 65 ∧ c.val.toNat ≤ 90)
    omega
  rw [if_neg hno]

lemma wordCh_not_space {c : Char} (h : isWordCh c = true) : isPySpace c = false := by
  cases hs : isPySpace c with
  | false => rfl
  | true =>
    exfalso
    rw [isPySpace] at hs
    simp only [Bool.or_eq_true, beq_iff_eq] at hs
    rcases hs with ((((h1 | h1) | h1) | h1) | h1) | h1 <;> subst h1 <;>
      exact absurd h (by decide)

lemma wordCh_ne_quote {c : Char} (h : isWordCh c = true) : c ≠ '"' := by
  intro hc
  subst hc
  exact absurd h (by decide)

/-! ### Star/plus behaviour on runs -/

lemma starM_nostep (p : Char → Bool) (cs : List Char) (gs : Groups) (k : MCont)
    (h : ∀ c, cs.head? = some c → p c = false) : starM p cs gs k = k cs gs := by
  cases cs with
  | nil => rfl
  | cons c cs' => simp [starM, h c rfl]

lemma wsP_none_on_word (cs : List Char) (hw : ∀ c ∈ cs, isWordCh c = true) :
    ∀ (gs : Groups) (k : MCont), wsP cs gs k = none := by
  intro gs k
  cases cs with
  | nil => rfl
  | cons c cs' =>
    rw [wsP, plusM, seqM, clsM]
    rw [wordCh_not_space (hw c (by simp))]
    simp

lemma starM_consume (p : Char → Bool) (res : Groups) :
    ∀ (cs rest : List Char) (gs : Groups) (k : MCont),
      (∀ c ∈ cs, p c = true) → (∀ c, rest.head? = some c → p c = false) →
      k rest gs = some res → starM p (cs ++ rest) gs k = some res := by
  intro cs
  induction cs with
  | nil =>
    intro rest gs k _ hstop hk
    rw [List.nil_append, starM_nostep p rest gs k hstop]
    exact hk
  | cons c cs' ih =>
    intro rest gs k hall hstop hk
    rw [List.cons_append, starM, hall c (by simp)]
    rw [if_pos rfl]
    rw [ih rest gs k (fun x hx => hall x (List.mem_cons_of_mem _ hx)) hstop hk]
    rfl

lemma starWordThenDigits (k : MCont) (res : Groups) :
    ∀ (cs : List Char) (gs : Groups), cs ≠ [] →
      (∀ c ∈ cs, isWordCh c = true) →
      cs.getLast?.any Char.isDigit = true →
      k [] gs = some res →
      starM isWordCh cs gs
        (fun r g => clsM Char.isDigit r g
          (fun r2 g2 => starM Char.isDigit r2 g2 k)) = some res := by
  intro cs
  induction cs with
  | nil => intro gs h; exact absurd rfl h
  | cons c cs' ih =>
    intro gs _ hw hlast hk
    have hcw : isWordCh c = true := hw c (by simp)
    cases cs' with
    | nil =>
      have hd : Char.isDigit c = true := by simpa using hlast
      rw [starM, hcw, if_pos rfl]
      show (starM isWordCh [] gs _).orElse _ = some res
      rw [starM]
      simp [clsM, starM, hd, hk]
    | cons c2 cs'' =>
      rw [starM, hcw, if_pos rfl]
      have hlast' : (c2 :: cs'').getLast?.any Char.isDigit = true := by
        rwa [List.getLast?_cons_cons] at hlast
      rw [ih gs (by simp) (fun x hx => hw x (List.mem_cons_of_mem _ hx)) hlast' hk]
      rfl

lemma tokAfterWs (lx : List Char) (gs : Groups)
    (hw : ∀ c ∈ lx, isWordCh c = true) (hlen : 2 ≤ lx.length)
    (hlast : lx.getLast?.any Char.isDigit = true) :
    starM isPySpace lx gs
      (fun cs' gs' => courseTokG cs' gs' (fun cs2 gs2 => some gs2))
      = some (gs ++ [lx]) := by
  obtain ⟨c0, cs, rfl⟩ : ∃ c0 cs, lx = c0 :: cs := by
    cases lx with
    | nil => simp at hlen
    | cons a b => exact ⟨a, b, rfl⟩
  rw [starM_nostep _ _ _ _ (fun c hc => by
    have hcc : c0 = c := Option.some.inj hc
    rw [← hcc]
    exact wordCh_not_space (hw c0 (by simp)))]
  have hcs : cs ≠ [] := by
    intro habs
    subst habs
    simp at hlen
  rw [courseTokG, groupM]
  show (seqM wordP digitP) (c0 :: cs) gs _ = some (gs ++ [c0 :: cs])
  rw [seqM, wordP, plusM, seqM, clsM, hw c0 (by simp), if_pos rfl]
  have hlast' : cs.getLast?.any Char.isDigit = true := by
    cases cs with
    | nil => exact absurd rfl hcs
    | cons c2 cs'' => rwa [List.getLast?_cons_cons] at hlast
  rw [show (digitP : M) = fun r2 g2 k => clsM Char.isDigit r2 g2
      (fun r3 g3 => starM Char.isDigit r3 g3 k) from rfl]
  rw [starWordThenDigits _ (gs ++ [c0 :: cs]) cs gs hcs
    (fun x hx => hw x (List.mem_cons_of_mem _ hx)) hlast' (by simp)]

/-- A literal followed by `\s+` fails on an all-word-character input: either
the literal mismatches, or the mandatory whitespace does. -/
lemma litM_wsP_word_none (lit cs : List Char) (gs : Groups) (k : MCont)
    (hw : ∀ c ∈ cs, isWordCh c = true) :
    litM lit cs gs (fun c1 g1 => wsP c1 g1 k) = none := by
  cases hsw : startsWithL lit cs with
  | false => exact litM_none _ _ _ _ hsw
  | true =>
    obtain ⟨rest, hrest⟩ : ∃ rest, cs = lit ++ rest :=
      ⟨_, startsWithL_decomp _ cs hsw⟩
    rw [hrest, litM_ok]
    exact wsP_none_on_word rest
      (fun c hc => hw c (by rw [hrest]; exact List.mem_append_right _ hc)) gs k

lemma matchAtM_p01_word (cs : List Char) (hw : ∀ c ∈ cs, isWordCh c = true) :
    matchAtM p01 cs = none := by
  simp only [matchAtM, p01, seqs, seqM, litS]
  exact litM_wsP_word_none _ _ _ _ hw

lemma matchAtM_p02_word (cs : List Char) (hw : ∀ c ∈ cs, isWordCh c = true) :
    matchAtM p02 cs = none := by
  simp only [matchAtM, p02, seqs, seqM, litS, optM]
  rw [litM_wsP_word_none _ _ _ _ hw]
  exact litM_wsP_word_none _ _ _ _ hw

lemma matchAtM_p03_word (cs : List Char) (hw : ∀ c ∈ cs, isWordCh c = true) :
    matchAtM p03 cs = none := by
  simp only [matchAtM, p03, seqs, seqM, litS]
  exact litM_wsP_word_none _ _ _ _ hw

lemma matchAtM_p04_word (cs : List Char) (hw : ∀ c ∈ cs, isWordCh c = true) :
    matchAtM p04 cs = none := by
  simp only [matchAtM, p04, seqs, seqM, litS]
  exact litM_wsP_word_none _ _ _ _ hw

lemma matchAtM_p01_startFail (cs : List Char)
    (h : startsWithL ("how".data) cs = false) : matchAtM p01 cs = none := by
  simp only [matchAtM, p01, seqs, seqM, litS]
  exact litM_none _ _ _ _ h

lemma matchAtM_p02_startFail (cs : List Char)
    (h1 : startsWithL ("total".data) cs = false)
    (h2 : startsWithL ("number".data) cs = false) : matchAtM p02 cs = none := by
  simp only [matchAtM, p02, seqs, seqM, litS, optM]
  rw [litM_none _ _ _ _ h1]
  exact litM_none _ _ _ _ h2

lemma matchAtM_p03_startFail (cs : List Char)
    (h : startsWithL ("compare".data) cs = false) : matchAtM p03 cs = none := by
  simp only [matchAtM, p03, seqs, seqM, litS]
  exact litM_none _ _ _ _ h

lemma matchAtM_p04_startFail (cs : List Char)
    (h : startsWithL ("difference".data) cs = false) : matchAtM p04 cs = none := by
  simp only [matchAtM, p04, seqs, seqM, litS]
  exact litM_none _ _ _ _ h

lemma search_p01_none (lx : List Char) (hw : ∀ c ∈ lx, isWordCh c = true) :
    searchM (matchAtM p01) ("all prerequisites for ".data ++ lx) = none := by
  rw [searchM_skip _ _ _ (fun i hi => matchAtM_p01_startFail _
    (allSuffixMismatch_startsWith ("how".data) _ (by decide) i hi lx))]
  exact searchM_word_none _ (fun t ht => matchAtM_p01_word t ht) lx hw

lemma search_p02_none (lx : List Char) (hw : ∀ c ∈ lx, isWordCh c = true) :
    searchM (matchAtM p02) ("all prerequisites for ".data ++ lx) = none := by
  rw [searchM_skip _ _ _ (fun i hi => matchAtM_p02_startFail _
    (allSuffixMismatch_startsWith ("total".data) _ (by decide) i hi lx)
    (allSuffixMismatch_startsWith ("number".data) _ (by decide) i hi lx))]
  exact searchM_word_none _ (fun t ht => matchAtM_p02_word t ht) lx hw

lemma search_p03_none (lx : List Char) (hw : ∀ c ∈ lx, isWordCh c = true) :
    searchM (matchAtM p03) ("all prerequisites for ".data ++ lx) = none := by
  rw [searchM_skip _ _ _ (fun i hi => matchAtM_p03_startFail _
    (allSuffixMismatch_startsWith ("compare".data) _ (by decide) i hi lx))]
  exact searchM_word_none _ (fun t ht => matchAtM_p03_word t ht) lx hw

set_option maxRecDepth 10000 in
lemma matchAtM_p05_hit (lx : List Char) (hw : ∀ c ∈ lx, isWordCh c = true)
    (hlen : 2 ≤ lx.length) (hlast : lx.getLast?.any Char.isDigit = true) :
    matchAtM p05 ("all prerequisites for ".data ++ lx) = some [lx] := by
  have hL : "all prerequisites for ".data =
      ['a', 'l', 'l', ' ', 'p', 'r', 'e', 'r', 'e', 'q', 'u', 'i', 's', 'i',
       't', 'e', 's', ' ', 'f', 'o', 'r', ' '] := rfl
  rw [hL]
  simp [matchAtM, p05, seqs, seqM, litS, litM, clsM, starM, optM, altM, alts,
    plusM, wsP, sOpt, theOpt, wordP, digitP, groupM, List.cons_append,
    List.nil_append, Option.orElse, isPySpace]
  rw [tokAfterWs lx [] hw hlen hlast]
  rfl

lemma search_p05_hit (lx : List Char) (hw : ∀ c ∈ lx, isWordCh c = true)
    (hlen : 2 ≤ lx.length) (hlast : lx.getLast?.any Char.isDigit = true) :
    searchM (matchAtM p05) ("all prerequisites for ".data ++ lx) = some [lx] := by
  have hmatch := matchAtM_p05_hit lx hw hlen hlast
  have hcons : "all prerequisites for ".data ++ lx
      = 'a' :: ("ll prerequisites for ".data ++ lx) := rfl
  rw [hcons] at hmatch ⊢
  rw [searchM, hmatch]
  rfl

lemma search_p04_none (lx : List Char) (hw : ∀ c ∈ lx, isWordCh c = true) :
    searchM (matchAtM p04) ("all prerequisites for ".data ++ lx) = none := by
  rw [searchM_skip _ _ _ (fun i hi => matchAtM_p04_startFail _
    (allSuffixMismatch_startsWith ("difference".data) _ (by decide) i hi lx))]
  exact searchM_word_none _ (fun t ht => matchAtM_p04_word t ht) lx hw

/-- On a question of the form `all prerequisites for <token>`, the pattern
loop hits the `GET_ALL_PREREQUISITES` pattern (the fifth entry): the four
entries before it all fail to match. -/
lemma firstMatch_allPrereq (lx : List Char) (rc : Option String)
    (hw : ∀ c ∈ lx, isWordCh c = true) (hlen : 2 ≤ lx.length)
    (hlast : lx.getLast?.any Char.isDigit = true) :
    firstMatch (mockPatterns ("all prerequisites for ".data ++ lx) rc)
      ("all prerequisites for ".data ++ lx)
      = some ("GET_ALL_PREREQUISITES",
          [("course_code", PVal.s (strUpper (grp [lx] 0)))]) := by
  simp only [mockPatterns, firstMatch, search_p01_none lx hw,
    search_p02_none lx hw, search_p03_none lx hw, search_p04_none lx hw,
    search_p05_hit lx hw hlen hlast]

lemma takeLen_append (l₁ l₂ : List Char) : (l₁ ++ l₂).take l₁.length = l₁ := by
  induction l₁ with
  | nil => rfl
  | cons a l ih => simp [ih]

set_option maxRecDepth 10000 in
lemma matchAt_questionRe_hit (q T : List Char) (hne : q ≠ [])
    (hq : ∀ c ∈ q, (c == '"') = false) :
    matchAtM questionRe ("Question: \"".data ++ (q ++ '"' :: T)) = some [q] := by
  have hL : "Question: \"".data =
      ['Q', 'u', 'e', 's', 't', 'i', 'o', 'n', ':', ' ', '"'] := rfl
  rw [hL]
  simp [matchAtM, questionRe, seqs, seqM, litS, litM, clsM, starM, plusM,
    wsS, groupM, List.cons_append, List.nil_append, Option.orElse, isPySpace]
  obtain ⟨q0, q', rfl⟩ : ∃ a b, q = a :: b := by
    cases q with
    | nil => exact absurd rfl hne
    | cons a b => exact ⟨a, b, rfl⟩
  have hq0 : ¬(q0 = '"') := by
    have h0 := hq q0 (by simp)
    intro h
    rw [h] at h0
    simp at h0
  rw [List.cons_append]
  simp [hq0]
  have hstar : starM (fun c => c != '"') (q' ++ '"' :: T) []
      (fun cs' gs' =>
        match cs' with
        | [] => none
        | x :: _ =>
          if x = '"' then
            some (gs' ++ [List.take (q'.length + 1 + (T.length + 1) - cs'.length)
              (q0 :: (q' ++ '"' :: T))])
          else none) = some [q0 :: q'] := by
    apply starM_consume
    · intro c hc
      have := hq c (List.mem_cons_of_mem _ hc)
      simp [bne, this]
    · intro c hc
      have hcc : ('"' : Char) = c := Option.some.inj hc
      rw [← hcc]
      decide
    · show (if ('"' : Char) = '"' then
          some (([] : Groups) ++ [List.take (q'.length + 1 + (T.length + 1)
            - (Char.ofNat 34 :: T).length) (q0 :: (q' ++ '"' :: T))])
        else none) = some [q0 :: q']
      rw [if_pos rfl]
      simp [takeLen_append]
  rw [hstar]

lemma matchAt_questionRe_startFail (cs : List Char)
    (h : startsWithL ("Question:".data) cs = false) :
    matchAtM questionRe cs = none := by
  simp only [matchAtM, questionRe, seqs, seqM, litS]
  exact litM_none _ _ _ _ h

set_option maxRecDepth 100000 in
/-- `re.search(r'Question:\s*"([^"]+)"', ...)` on the built prompt finds the
question embedded by `parse_question`: the system prompt before it contains
no occurrence of `Question:`. -/
lemma extractQuestion_buildPrompt (q : String) (hne : q.data ≠ [])
    (hq : ∀ c ∈ q.data, (c == '"') = false) :
    extractQuestion (buildPrompt q).data = some q.data := by
  have hA : ("\n\nQuestion: \"" : String).data
      = ("\n\n" : String).data ++ ("Question: \"" : String).data := rfl
  have hB : ("\"\n\nRespond with only the JSON object, no additional text." :
        String).data
      = '"' :: ("\n\nRespond with only the JSON object, no additional text." :
        String).data := rfl
  have hsplit : (buildPrompt q).data
      = (parseSystemPrompt ++ "\n\n").data ++ ("Question: \"".data
          ++ (q.data ++ '"' ::
            ("\n\nRespond with only the JSON object, no additional text." :
              String).data)) := by
    rw [buildPrompt]
    rw [String.data_append, String.data_append, String.data_append,
      String.data_append, hA, hB]
    simp only [List.append_assoc]
  rw [extractQuestion] at *
  rw [hsplit]
  rw [searchM_skip _ _ _ (fun i hi => matchAt_questionRe_startFail _
    (allSuffixMismatch_startsWith ("Question:".data) _ (by decide) i hi _))]
  have hmatch := matchAt_questionRe_hit q.data
    ("\n\nRespond with only the JSON object, no additional text." :
      String).data hne hq
  have hcons : "Question: \"".data ++ (q.data ++ '"' ::
        ("\n\nRespond with only the JSON object, no additional text." :
          String).data)
      = 'Q' :: ("uestion: \"".data ++ (q.data ++ '"' ::
        ("\n\nRespond with only the JSON object, no additional text." :
          String).data)) := rfl
  rw [hcons] at hmatch ⊢
  rw [searchM, hmatch]
  rfl

lemma getLastOfMap (f : Char → Char) : ∀ l : List Char,
    (l.map f).getLast? = l.getLast?.map f := by
  intro l
  induction l with
  | nil => rfl
  | cons a l ih =>
    cases l with
    | nil => rfl
    | cons b t =>
      rw [List.map_cons, List.map_cons, List.getLast?_cons_cons,
        List.getLast?_cons_cons, ← List.map_cons]
      exact ih

/-- A course token as matched by `(\w+\d+)`: word characters only, at least
two of them, ending in a digit. -/
def isCourseToken (s : String) : Bool :=
  s.data.all isWordCh && decide (2 ≤ s.data.length)
    && s.data.getLast?.any Char.isDigit

/-- `generate` on the prompt built around `all prerequisites for X`: the
fifth pattern fires. -/
lemma mockGenerate_allPrereq (X : String)
    (hw : ∀ c ∈ X.data, isWordCh c = true)
    (hlen : 2 ≤ X.data.length)
    (hlast : X.data.getLast?.any Char.isDigit = true) :
    mockGenerate (buildPrompt ("all prerequisites for " ++ X))
      = { queryType := "GET_ALL_PREREQUISITES",
          parameters := [("course_code",
            PVal.s (strUpper (grp [X.data.map Char.toLower] 0)))],
          confidence := mockConfHit } := by
  have hqdata : ("all prerequisites for " ++ X).data
      = "all prerequisites for ".data ++ X.data := String.data_append _ _
  have hne : ("all prerequisites for " ++ X).data ≠ [] := by
    rw [hqdata]
    simp
  have hq : ∀ c ∈ ("all prerequisites for " ++ X).data, (c == '"') = false := by
    rw [hqdata]
    intro c hc
    rcases List.mem_append.mp hc with h | h
    · have hconc : ∀ c ∈ "all prerequisites for ".data, (c == '"') = false := by
        decide
      exact hconc c h
    · exact beq_eq_false_iff_ne.mpr (wordCh_ne_quote (hw c h))
  have hmap : (("all prerequisites for " ++ X).data).map Char.toLower
      = "all prerequisites for ".data ++ X.data.map Char.toLower := by
    rw [hqdata, List.map_append]
    congr 1
  have hwlx : ∀ c ∈ X.data.map Char.toLower, isWordCh c = true := by
    intro c hc
    obtain ⟨a, ha, rfl⟩ := List.mem_map.mp hc
    exact isWordCh_toLower (hw a ha)
  have hlenlx : 2 ≤ (X.data.map Char.toLower).length := by
    rw [List.length_map]
    exact hlen
  have hlastlx : (X.data.map Char.toLower).getLast?.any Char.isDigit = true := by
    rw [getLastOfMap]
    cases hgl : X.data.getLast? with
    | none => rw [hgl] at hlast; simp at hlast
    | some d =>
      have hd : d.isDigit = true := by
        rw [hgl] at hlast
        simpa using hlast
      simp [Option.any, isDigit_toLower hd, hd]
  simp only [mockGenerate, extractQuestion_buildPrompt _ hne hq]
  rw [hmap, firstMatch_allPrereq (X.data.map Char.toLower) _ hwlx hlenlx hlastlx]

/-- C6: for every course token `X` (word characters, at least two, ending in
a digit — the shape `(\w+\d+)` matches), parsing the text
`all prerequisites for X` resolves to the transitive-prerequisite intent
`GET_ALL_PREREQUISITES` and not to the direct-prerequisite intent
`GET_PREREQUISITES`: the more specific pattern sits before the general one
in the ordered rule list of `MockLLMProvider.generate`. -/
theorem c6_all_prereqs_resolves_transitive (X : String)
    (hX : isCourseToken X = true) :
    (parseQuestion ("all prerequisites for " ++ X)).queryType
        = QueryType.GET_ALL_PREREQUISITES
  ∧ (parseQuestion ("all prerequisites for " ++ X)).queryType
        ≠ QueryType.GET_PREREQUISITES := by
  rw [isCourseToken, Bool.and_eq_true, Bool.and_eq_true] at hX
  obtain ⟨⟨hall, hlen⟩, hlast⟩ := hX
  have hw : ∀ c ∈ X.data, isWordCh c = true :=
    fun c hc => List.all_eq_true.mp hall c hc
  have hlen' : 2 ≤ X.data.length := of_decide_eq_true hlen
  have hgen := mockGenerate_allPrereq X hw hlen' hlast
  have hval : (parseQuestion ("all prerequisites for " ++ X)).queryType
      = QueryType.GET_ALL_PREREQUISITES := by
    simp only [parseQuestion, hgen]
    decide
  exact ⟨hval, by rw [hval]; decide⟩

theorem c6_all_prereqs_resolves_transitive_witness :
    isCourseToken "CS301" = true
  ∧ ((parseQuestion ("all prerequisites for " ++ "CS301")).queryType
        = QueryType.GET_ALL_PREREQUISITES
     ∧ (parseQuestion ("all prerequisites for " ++ "CS301")).queryType
        ≠ QueryType.GET_PREREQUISITES) :=
  ⟨by decide, c6_all_prereqs_resolves_transitive "CS301" (by decide)⟩

/-- C4 (amended): for every extractable question (nonempty, quote-free) on
which no parser pattern matches, `parse_question` yields a `SEARCH_COURSES`
query with confidence 0.5 — so the parser always produces a structured
query — but the search parameter is the *lower-cased* question text
`question.lower()`, not the original question text. -/
theorem c4_no_match_fallback_search (q : String)
    (hne : q.data ≠ []) (hq : ∀ c ∈ q.data, (c == '"') = false)
    (hnomatch : firstMatch
      (mockPatterns (q.data.map Char.toLower)
        (mockResolveCourse (q.data.map Char.toLower)))
      (q.data.map Char.toLower) = none) :
    parseQuestion q =
      { originalQuestion := q, queryType := QueryType.SEARCH_COURSES,
        parameters := [("query", PVal.s ⟨q.data.map Char.toLower⟩)],
        confidence := mockConfFallback }
  ∧ mockConfFallback = 1 / 2 := by
  constructor
  · have hst : strToQueryType "SEARCH_COURSES" = QueryType.SEARCH_COURSES := by
      decide
    simp only [parseQuestion, mockGenerate,
      extractQuestion_buildPrompt _ hne hq, hnomatch, hst]
  · rw [mockConfFallback]
    norm_num [Rat.mk'_eq_divInt, Rat.divInt_eq_div]

theorem c4_no_match_fallback_search_witness :
    (("ZZZZ" : String).data ≠ []
      ∧ (∀ c ∈ ("ZZZZ" : String).data, (c == '"') = false)
      ∧ firstMatch
          (mockPatterns (("ZZZZ" : String).data.map Char.toLower)
            (mockResolveCourse (("ZZZZ" : String).data.map Char.toLower)))
          (("ZZZZ" : String).data.map Char.toLower) = none)
  ∧ (parseQuestion "ZZZZ" =
      { originalQuestion := "ZZZZ", queryType := QueryType.SEARCH_COURSES,
        parameters := [("query",
          PVal.s ⟨("ZZZZ" : String).data.map Char.toLower⟩)],
        confidence := mockConfFallback }
     ∧ mockConfFallback = 1 / 2) :=
  ⟨⟨by decide, by decide, by decide⟩,
   c4_no_match_fallback_search "ZZZZ" (by decide) (by decide) (by decide)⟩

set_option maxRecDepth 10000 in
/-- C4, the part the code refutes: the fallback's search parameter is not
the full question text — for the question `ZZZZ` (on which no pattern
matches) the stored query is the lower-cased `zzzz`, which differs from the
question text. -/
theorem c4_counterexample_query_lowercased :
    parseQuestion "ZZZZ"
      = { originalQuestion := "ZZZZ", queryType := QueryType.SEARCH_COURSES,
          parameters := [("query", PVal.s "zzzz")],
          confidence := mockConfFallback }
  ∧ ("zzzz" : String) ≠ "ZZZZ" := by
  constructor
  · decide
  · decide

end NeuroSim
